import Mathlib

/-!
Verification development for the output / reconciliation layer of
simple-ddl-parser: a shallow embedding of
`output/core.py`, `output/base_data.py` and `output/table_data.py`.

Python values flowing through this layer (statement records, columns,
ledgers) are modelled by the inductive `Value`; Python dicts are ordered
association lists (`Dict`), matching CPython's insertion-ordered dicts.
Table entities (instances of the `BaseData` dataclass) are modelled by
their `__dict__`, again an ordered association list, whose key set is the
dataclass field list.

Python aliasing: `Output.process_statement_data` appends
`table_data.to_dict()` to `final_result` while later ALTER/INDEX
statements mutate the same `table_data` object in place; every such
mutation is an in-place update of a list/dict reachable from the emitted
dict (none of the alter paths rebinds an entity attribute, and none of
them changes the key set or the filter decisions of `to_dict`, whose
conditions depend only on the static field metadata, the immutable
`init_data`, and `table_properties`, which no alter touches).  The
emitted dict therefore shows the entity's *final* state.  The embedding
models this by storing a reference (`ResItem.tableRef`) into an
append-only object store and materialising `to_dict` after the whole
stream is processed.
-/

namespace SimpleDDL

/-- Model of the Python values handled by the output layer: None, bools,
strings, ints, lists and (insertion-ordered) dicts. -/
inductive Value where
  | vnone
  | vbool (b : Bool)
  | vstr  (s : String)
  | vint  (n : Int)
  | vlist (xs : List Value)
  | vdict (xs : List (String × Value))
deriving Repr

namespace Value

mutual
/-- Structural equality on `Value` (Python `==` on these shapes). -/
def beqV : Value → Value → Bool
  | .vnone, .vnone => true
  | .vbool a, .vbool b => a == b
  | .vstr a, .vstr b => a == b
  | .vint a, .vint b => a == b
  | .vlist a, .vlist b => beqL a b
  | .vdict a, .vdict b => beqD a b
  | _, _ => false

/-- Structural equality on lists of `Value`. -/
def beqL : List Value → List Value → Bool
  | [], [] => true
  | x :: xs, y :: ys => beqV x y && beqL xs ys
  | _, _ => false

/-- Structural equality on dicts of `Value`. -/
def beqD : List (String × Value) → List (String × Value) → Bool
  | [], [] => true
  | (k1, v1) :: xs, (k2, v2) :: ys => k1 == k2 && beqV v1 v2 && beqD xs ys
  | _, _ => false
end

mutual
theorem beqV_iff : ∀ (a b : Value), beqV a b = true ↔ a = b
  | .vnone, b => by cases b <;> simp [beqV]
  | .vbool a, b => by cases b <;> simp [beqV]
  | .vstr a, b => by cases b <;> simp [beqV]
  | .vint a, b => by cases b <;> simp [beqV]
  | .vlist a, b => by
      cases b <;> simp [beqV]
      exact beqL_iff a _
  | .vdict a, b => by
      cases b <;> simp [beqV]
      exact beqD_iff a _

theorem beqL_iff : ∀ (a b : List Value), beqL a b = true ↔ a = b
  | [], b => by cases b <;> simp [beqL]
  | x :: xs, b => by
      cases b with
      | nil => simp [beqL]
      | cons y ys =>
        simp only [beqL, Bool.and_eq_true, List.cons.injEq]
        rw [beqV_iff x y, beqL_iff xs ys]

theorem beqD_iff : ∀ (a b : List (String × Value)), beqD a b = true ↔ a = b
  | [], b => by cases b <;> simp [beqD]
  | (k1, v1) :: xs, b => by
      cases b with
      | nil => simp [beqD]
      | cons y ys =>
        obtain ⟨k2, v2⟩ := y
        simp only [beqD, Bool.and_eq_true, List.cons.injEq, Prod.mk.injEq, beq_iff_eq]
        rw [beqV_iff v1 v2, beqD_iff xs ys]
end

instance : DecidableEq Value := fun a b => decidable_of_iff (beqV a b = true) (beqV_iff a b)

/-- Python truthiness of a `Value` (`bool(v)`). -/
def truthy : Value → Bool
  | .vnone => false
  | .vbool b => b
  | .vstr s => s ≠ ""
  | .vint n => n ≠ 0
  | .vlist xs => xs ≠ []
  | .vdict xs => xs ≠ []

/-- View a `Value` as a list (used where Python iterates it). -/
def asList : Value → List Value
  | .vlist xs => xs
  | _ => []

/-- View a `Value` as a dict (used where Python subscripts it). -/
def asDict : Value → List (String × Value)
  | .vdict xs => xs
  | _ => []

/-- View a `Value` as a string. -/
def asStr : Value → String
  | .vstr s => s
  | _ => ""

/-- Approximation of Python `str()` as used in the unknown-table error
message interpolation. -/
def display : Value → String
  | .vnone => "None"
  | .vbool b => if b then "True" else "False"
  | .vstr s => s
  | .vint n => toString n
  | .vlist _ => "[...]"
  | .vdict _ => "..."

end Value

/-- A Python dict with string keys, as an insertion-ordered association
list with unique keys. -/
abbrev Dict := List (String × Value)

/-- First (and, with unique keys, only) binding of `k` in `d`. -/
def dlookup : Dict → String → Option Value
  | [], _ => none
  | (k', v) :: rest, k => if k' = k then some v else dlookup rest k

/-- Python `k in d`. -/
def dcontains (d : Dict) (k : String) : Bool := (dlookup d k).isSome

/-- Python `d[k] = v`: replace in place (keeping the key's position, as
CPython does) or append a new binding. -/
def dset : Dict → String → Value → Dict
  | [], k, v => [(k, v)]
  | (k', v') :: rest, k, v =>
      if k' = k then (k, v) :: rest else (k', v') :: dset rest k v

/-- Python `del d[k]`, made total: removing an absent key is a no-op
(the source would raise `KeyError`; the claims below only exercise it on
present keys). -/
def derase : Dict → String → Dict
  | [], _ => []
  | (k', v') :: rest, k => if k' = k then rest else (k', v') :: derase rest k

/-- `d[k]` with `None` for a missing key (total version of Python
subscripting / attribute access; entities always carry all their
dataclass fields, so on the paths proved below the key is present). -/
def dgetD (d : Dict) (k : String) : Value := (dlookup d k).getD .vnone

/-- Python `v.get(k, dflt)` on a dict-shaped `Value`. -/
def vdGet (v : Value) (k : String) (dflt : Value) : Value :=
  match v with
  | .vdict d => (dlookup d k).getD dflt
  | _ => dflt

/-- Python `x in container` for the container shapes this layer uses
(membership in a list by `==`; membership among dict keys). -/
def memIn (x : Value) (container : Value) : Bool :=
  match container with
  | .vlist xs => xs.contains x
  | .vdict d => match x with
      | .vstr s => dcontains d s
      | _ => false
  | _ => false

/-- Modelled from the spec: `normalize_name` lives in
`simple_ddl_parser/utils.py`, which is not part of the sources under
`src/`.  The spec says it is "a canonical form that strips quoting/case
distinctions used by the grammar", so quoting characters are removed and
the name is lower-cased. -/
def normalizeName (s : String) : String :=
  ((s.toList.filter (fun c => c ≠ '"' ∧ c ≠ '\'' ∧ c ≠ '`' ∧ c ≠ '[' ∧ c ≠ ']')).map Char.toLower).asString

/-- Modelled from the spec: `get_table_id` lives in
`simple_ddl_parser/utils.py`, which is not part of the sources under
`src/`.  The registry key pairs the table name with the schema (or
dataset) name; the component order matches the error message in
`Output.get_table_from_tables_data`, which prints `table_id[0]` as the
TABLE and `table_id[1]` as the SCHEMA. -/
def getTableId (schemaName tableName : Value) : Value × Value :=
  (tableName, schemaName)

/-- The `metadata` flags a `BaseData` dataclass field can carry
(base_data.py): `exclude_always`, `exclude_if_not_provided`,
`exclude_if_empty`, and the dialect allow-list `output_modes`. -/
structure FieldMeta where
  excludeAlways : Bool := false
  excludeIfNotProvided : Bool := false
  excludeIfEmpty : Bool := false
  outputModes : Option (List String) := none
deriving Repr, DecidableEq

/-- The `BaseData` dataclass fields in declaration order with their
metadata flags (base_data.py lines 18-70). -/
def baseDataFields : List (String × FieldMeta) :=
  [ ("table_name", {}),
    ("init_data", { excludeAlways := true }),
    ("output_mode", { excludeAlways := true }),
    ("schema", {}),
    ("primary_key", {}),
    ("columns", {}),
    ("alter", {}),
    ("checks", {}),
    ("index", {}),
    ("partitioned_by", {}),
    ("constraints", { excludeIfNotProvided := true }),
    ("tablespace", {}),
    ("if_not_exists", { excludeIfNotProvided := true }),
    ("partition_by", { excludeIfNotProvided := true }),
    ("table_properties", { excludeIfEmpty := true }),
    ("replace", { excludeIfNotProvided := true }),
    ("comment", { excludeIfNotProvided := true }),
    ("like", { excludeIfNotProvided := true }),
    ("unique", { excludeAlways := true }),
    ("unique_statement", { excludeAlways := true }),
    ("ref_columns", { excludeAlways := true }),
    ("references", { excludeAlways := true }) ]

/-- The dataclass field names in declaration order (the instance
`__dict__` key order produced by the generated constructor). -/
def baseFieldNames : List String := baseDataFields.map Prod.fst

/-- Default value of each `BaseData` field (`default` /
`default_factory` in base_data.py). -/
def fieldDefault : String → Value
  | "output_mode" => .vstr "sql"
  | "columns" => .vlist []
  | "alter" => .vdict []
  | "checks" => .vlist []
  | "index" => .vlist []
  | "partitioned_by" => .vlist []
  | "constraints" => .vdict []
  | "if_not_exists" => .vbool false
  | "partition_by" => .vdict []
  | "table_properties" => .vdict []
  | "like" => .vdict []
  | "unique" => .vlist []
  | "unique_statement" => .vlist []
  | "ref_columns" => .vlist []
  | "references" => .vlist []
  | _ => .vnone

/-- Column subscript `column[k]` (columns are dict-shaped values). -/
def cget (c : Value) (k : String) : Value := dgetD c.asDict k

/-- Column assignment `column[k] = v`. -/
def cset (c : Value) (k : String) (v : Value) : Value := .vdict (dset c.asDict k v)

/-- Column key deletion `del column[k]`. -/
def cerase (c : Value) (k : String) : Value := .vdict (derase c.asDict k)

/-- The entity's `columns` attribute as a list. -/
def ecols (e : Dict) : List Value := (dgetD e "columns").asList

/-- Replace the entity's `columns` attribute. -/
def setCols (e : Dict) (cols : List Value) : Dict := dset e "columns" (.vlist cols)

/-- `BaseData.set_column_unique_param` (base_data.py lines 105-116). -/
def setColumnUniqueParam (e : Dict) (key : String) : Dict :=
  setCols e ((ecols e).map (fun column =>
    let checkIn : Value :=
      if key = "constraints" then
        let uniqueC := vdGet (dgetD e key) "unique" (.vlist [])
        if uniqueC.truthy then vdGet uniqueC "columns" .vnone else .vlist []
      else dgetD e key
    if memIn (cget column "name") checkIn then cset column "unique" (.vbool true)
    else column))

/-- `BaseData.set_unique_columns` (base_data.py lines 97-103): apply
`set_column_unique_param` for `unique_statement` then `constraints`,
each only when truthy. -/
def setUniqueColumns (e : Dict) : Dict :=
  let e1 := if (dgetD e "unique_statement").truthy then setColumnUniqueParam e "unique_statement" else e
  if (dgetD e1 "constraints").truthy then setColumnUniqueParam e1 "constraints" else e1

/-- `BaseData.normalize_ref_columns_in_final_output` (base_data.py lines
118-124): each reference descriptor is attached, with its `name` key
removed, as the `references` attribute of every column whose name
matches; the descriptors themselves keep living in `ref_columns`
(which `to_dict` always excludes), stripped of `name` when matched. -/
def normalizeRefColumns (e : Dict) : Dict :=
  let refs := (dgetD e "ref_columns").asList
  let e1 := refs.foldl (fun acc colRef =>
    let name := cget colRef "name"
    setCols acc ((ecols acc).map (fun column =>
      if name = cget column "name" then cset column "references" (cerase colRef "name")
      else column))) e
  dset e1 "ref_columns" (.vlist (refs.map (fun r =>
    if (ecols e).any (fun c => cget c "name" = cget r "name") then cerase r "name" else r)))

/-- `BaseData.remove_pk_from_columns` (base_data.py lines 141-143). -/
def removePkFromColumns (e : Dict) : Dict :=
  setCols e ((ecols e).map (fun c => cerase c "primary_key"))

/-- `BaseData.get_pk_from_columns_and_constraints` (base_data.py lines
145-155): collect names of flagged columns in column order, strip the
flag, then extend with the column lists of the table-level primary-key
constraints in declaration order. -/
def getPkFromColumnsAndConstraints (e : Dict) : Dict :=
  let pk1 := (ecols e).filterMap (fun c =>
    if (cget c "primary_key").truthy then some (cget c "name") else none)
  let e1 := removePkFromColumns e
  let pkCons := vdGet (dgetD e1 "constraints") "primary_keys" .vnone
  let pk2 := if pkCons.truthy then pkCons.asList.foldl (fun acc kc => acc ++ (cget kc "columns").asList) [] else []
  dset e1 "primary_key" (.vlist (pk1 ++ pk2))

/-- `BaseData.add_unique_columns` (base_data.py lines 157-160). -/
def addUniqueColumns (e : Dict) : Dict :=
  setCols e ((ecols e).map (fun c =>
    if memIn (cget c "name") (dgetD e "unique") then cset c "unique" (.vbool true) else c))

/-- `BaseData.populate_keys` (base_data.py lines 126-139). -/
def populateKeys (e : Dict) : Dict :=
  let e1 := if ¬ (dgetD e "primary_key").truthy then getPkFromColumnsAndConstraints e
            else removePkFromColumns e
  let e2 := if (dgetD e1 "unique").truthy then addUniqueColumns e1 else e1
  setCols e2 ((ecols e2).map (fun c =>
    if memIn (cget c "name") (dgetD e2 "primary_key") then cset c "nullable" (.vbool false) else c))

/-- `BaseData.__post_init__` (base_data.py lines 91-95); `post_process`
is a no-op on `BaseData`. -/
def postInit (e : Dict) : Dict := normalizeRefColumns (populateKeys (setUniqueColumns e))

/-- `TableData.pre_load_mods` (table_data.py lines 28-43) on the base
(non-bigquery) schema: partition the raw keys into recognized main args
and extra table properties, and retain the union of all original keys as
`init_data`. -/
def preLoadMods (kwargs : Dict) : Dict :=
  let tableMainArgs := kwargs.filter (fun kv => baseFieldNames.contains kv.1)
  let tableProperties := kwargs.filter (fun kv => ¬ baseFieldNames.contains kv.1)
  let initData := tableMainArgs ++ tableProperties
  dset (dset tableMainArgs "table_properties" (.vdict tableProperties)) "init_data" (.vdict initData)

/-- The generated dataclass constructor: assign every field in
declaration order, from the kwargs or from the field default. -/
def constructBase (kwargs : Dict) : Dict :=
  baseFieldNames.map (fun n => (n, (dlookup kwargs n).getD (fieldDefault n)))

/-- `TableData.init` on the `BaseData` schema.  `init` calls
`pre_load_mods` twice (table_data.py lines 48-50); on the non-bigquery
path `pre_load_mods` does not mutate its argument, so the double call
equals a single one. -/
def buildBaseData (kwargs : Dict) : Dict := postInit (constructBase (preLoadMods kwargs))

/-- Modelled from the spec: for `output_mode` other than the generic
"sql" tag, `TableData.get_dialect_class` synthesizes a dialect class
from `simple_ddl_parser/output/dialects.py`, which is not part of the
sources under `src/`; the spec (section 4.2) says the builder selects
the dialect schema, or the generic schema when the tag is the default.
The embedding uses the generic `BaseData` schema; the theorems that
exercise the builder fix `output_mode = "sql"`. -/
def tableDataInit (kwargs : Dict) : Dict := buildBaseData kwargs

/-- The static metadata for a `__dict__` key: its dataclass field
entry, or no flags for non-field keys. -/
def metaFor (fld : String) : FieldMeta :=
  ((baseDataFields.find? (fun p => p.1 = fld)).map Prod.snd).getD {}

/-- Dialect restriction: the field carries an `output_modes` allow-list
and the active mode is not in it (base_data.py lines 177-180). -/
def dialectRestricted (m : FieldMeta) (mode : String) : Bool :=
  match m.outputModes with
  | some l => ! l.contains mode
  | none => false

/-- `BaseData.filter_out_output` (base_data.py lines 162-189): decide
whether field `fld` survives into the output, checking always-excluded,
then provided-ness against `init_data`, then emptiness, then the
dialect allow-list. -/
def filterOutOutput (e : Dict) (fld : String) : Bool :=
  let m := metaFor fld
  if m.excludeAlways then false
  else if m.excludeIfNotProvided && ! memIn (.vstr fld) (dgetD e "init_data") then false
  else if m.excludeIfEmpty && ! (dgetD e fld).truthy then false
  else if dialectRestricted m ((dgetD e "output_mode").asStr) then false
  else true

/-- `BaseData.to_dict` (base_data.py lines 191-196): the `__dict__`
entries that survive `filter_out_output`. -/
def toDict (e : Dict) : Dict := e.filter (fun kv => filterOutOutput e kv.1)

/-- The four exclusion rules of the field filter policy, in the fixed
order the spec states for them (spec section 4.1). -/
inductive FilterRule where
  | alwaysExcluded
  | notProvided
  | emptyValue
  | dialect
deriving Repr, DecidableEq

/-- Whether one filter rule applies to (and so excludes) a field. -/
def ruleApplies (e : Dict) (fld : String) (m : FieldMeta) : FilterRule → Bool
  | .alwaysExcluded => m.excludeAlways
  | .notProvided => m.excludeIfNotProvided && ! memIn (.vstr fld) (dgetD e "init_data")
  | .emptyValue => m.excludeIfEmpty && ! (dgetD e fld).truthy
  | .dialect => dialectRestricted m ((dgetD e "output_mode").asStr)

/-- The filter policy as the spec words it: scan the rules in the fixed
order always-excluded, not-provided, empty, dialect-restriction; the
first rule that matches excludes the field; otherwise include it. -/
def specOrderFilter (e : Dict) (fld : String) : Bool :=
  (([FilterRule.alwaysExcluded, .notProvided, .emptyValue, .dialect].find?
      (ruleApplies e fld (metaFor fld))).isNone)

/-- The entity's `alter` ledger as a dict. -/
def ealter (e : Dict) : List (String × Value) := (dgetD e "alter").asDict

/-- Replace the entity's `alter` ledger. -/
def setAlter (e : Dict) (a : List (String × Value)) : Dict := dset e "alter" (.vdict a)

/-- `if not target_table.alter.get(k): target_table.alter[k] = []`. -/
def alterEnsure (a : List (String × Value)) (k : String) : List (String × Value) :=
  if ¬ (dgetD a k).truthy then dset a k (.vlist []) else a

/-- First live column whose normalized name equals the normalized
statement-supplied name (the `for num, column in enumerate(...)` with
`break` pattern of `alter_drop_columns` / `alter_modify_columns`). -/
def findColIdx (cols : List Value) (name : String) : Option Nat :=
  cols.findIdx? (fun column => normalizeName name = normalizeName ((cget column "name").asStr))

/-- One iteration of the `alter_rename_columns` pair loop: rename the
first live column whose normalized name matches, then stop. -/
def renameOne (cols : List Value) (fromName toName : Value) : List Value :=
  match cols with
  | [] => []
  | c :: rest =>
    if normalizeName fromName.asStr = normalizeName ((cget c "name").asStr) then
      (cset c "name" toName) :: rest
    else c :: renameOne rest fromName toName

/-- `alter_rename_columns` (core.py lines 211-221). -/
def alterRenameColumns (e : Dict) (statement : Dict) : Dict :=
  let pairs := (dgetD statement "columns_to_rename").asList
  let e1 := setCols e (pairs.foldl (fun cols p => renameOne cols (cget p "from") (cget p "to")) (ecols e))
  let a1 := alterEnsure (ealter e1) "renamed_columns"
  setAlter e1 (dset a1 "renamed_columns" (.vlist ((dgetD a1 "renamed_columns").asList ++ pairs)))

/-- One iteration of the `alter_drop_columns` name loop: overwrite the
ledger slot with the removed column object, then delete the column. -/
def dropOne (e : Dict) (columnToDrop : Value) : Dict :=
  match findColIdx (ecols e) columnToDrop.asStr with
  | none => e
  | some i =>
    let e1 := setAlter e (dset (ealter e) "dropped_columns" ((ecols e).getD i .vnone))
    setCols e1 ((ecols e1).eraseIdx i)

/-- `alter_drop_columns` (core.py lines 197-208). -/
def alterDropColumns (e : Dict) (statement : Dict) : Dict :=
  let e1 := setAlter e (alterEnsure (ealter e) "dropped_columns")
  ((dgetD statement "columns_to_drop").asList).foldl dropOne e1

/-- One iteration of the `alter_modify_columns` loop: overwrite the
ledger slot with the old column object, then replace the column. -/
def modifyOne (e : Dict) (modifiedColumn : Value) : Dict :=
  match findColIdx (ecols e) ((cget modifiedColumn "name").asStr) with
  | none => e
  | some i =>
    let e1 := setAlter e (dset (ealter e) "modified_columns" ((ecols e).getD i .vnone))
    setCols e1 ((ecols e1).set i modifiedColumn)

/-- `alter_modify_columns` (core.py lines 180-194). -/
def alterModifyColumns (e : Dict) (statement : Dict) : Dict :=
  let e1 := setAlter e (alterEnsure (ealter e) "modified_columns")
  ((dgetD statement "columns_to_modify").asList).foldl modifyOne e1

/-- The `"check" in statement` branch of `Output.add_alter_to_table`
(core.py lines 69-73): join the check token list and append. -/
def alterAddCheck (e : Dict) (statement : Dict) : Dict :=
  let a1 := alterEnsure (ealter e) "checks"
  let chk := dgetD statement "check"
  let chk1 := cset chk "statement" (.vstr (String.intercalate " " (((cget chk "statement").asList).map Value.asStr)))
  setAlter e (dset a1 "checks" (.vlist ((dgetD a1 "checks").asList ++ [chk1])))

/-- `set_alter_to_table_data` (core.py lines 224-230). -/
def setAlterToTableData (key : String) (statement : Dict) (e : Dict) : Dict :=
  let a1 := alterEnsure (ealter e) (key ++ "s")
  let payload := if dcontains statement "using" then cset (dgetD statement key) "using" (dgetD statement "using")
                 else dgetD statement key
  setAlter e (dset a1 (key ++ "s") (.vlist ((dgetD a1 (key ++ "s")).asList ++ [payload])))

/-- `set_unique_columns_from_alter` (core.py lines 172-177): mark every
column whose name equals (plain `==`) one of the named columns. -/
def setUniqueColumnsFromAlter (statement : Dict) (e : Dict) : Dict :=
  let names := (vdGet (dgetD statement "unique") "columns" .vnone).asList
  setCols e ((ecols e).map (fun column =>
    if names.contains (cget column "name") then cset column "unique" (.vbool true) else column))

/-- `set_default_columns_from_alter` (core.py lines 163-169): set the
default of every column whose name equals (plain `==`) a named column,
when the clause's column list is truthy. -/
def setDefaultColumnsFromAlter (statement : Dict) (e : Dict) : Dict :=
  let defaultClause := dgetD statement "default"
  let names := vdGet defaultClause "columns" .vnone
  setCols e ((ecols e).map (fun column =>
    if names.truthy && names.asList.contains (cget column "name") then
      cset column "default" (vdGet defaultClause "value" .vnone)
    else column))

/-- `BaseData.create_alter_column_references` (base_data.py lines
226-239): synthesize the added column with a per-index reference. -/
def createAlterColumnReferences (index : Nat) (column : Value) (refStatement : Value) : Value :=
  let columnReference := ((vdGet refStatement "columns" .vnone).asList.getD index .vnone)
  let alterColumn : Dict :=
    [("name", cget column "name"), ("constraint_name", vdGet column "constraint_name" .vnone)]
  .vdict (dset alterColumn "references" (cerase (cset refStatement "column" columnReference) "columns"))

/-- `BaseData.prepare_alter_columns` (base_data.py lines 199-224; the
source file shows it dedented to module level, but `Output.
add_alter_to_table` invokes it as `target_table.prepare_alter_columns`,
i.e. as a method of the entity): append the added columns to the
ledger's `columns` bucket, then append to the live columns those ledger
columns whose normalized name is not already a live column name
(the live-name list is computed once, before the loop). -/
def prepareAlterColumns (e : Dict) (statement : Dict) : Dict :=
  let alterColumns := ((dgetD statement "columns").asList).enum.map (fun nc =>
    if (dgetD statement "references").truthy then
      createAlterColumnReferences nc.1 nc.2 (dgetD statement "references")
    else nc.2)
  let a := ealter e
  let a1 := if ¬ (dgetD a "columns").truthy then dset a "columns" (.vlist alterColumns)
            else dset a "columns" (.vlist ((dgetD a "columns").asList ++ alterColumns))
  let e1 := setAlter e a1
  let tableColumns := (ecols e1).map (fun c => normalizeName ((cget c "name").asStr))
  setCols e1 ((ecols e1) ++ ((dgetD a1 "columns").asList.filter (fun c =>
    ¬ tableColumns.contains (normalizeName ((cget c "name").asStr)))))

/-- The operation dispatch of `Output.add_alter_to_table` (core.py
lines 61-83), as a pure transform of the target entity. -/
def applyAlterStmt (e : Dict) (statement : Dict) : Dict :=
  if dcontains statement "columns" then prepareAlterColumns e statement
  else if dcontains statement "columns_to_rename" then alterRenameColumns e statement
  else if dcontains statement "columns_to_drop" then alterDropColumns e statement
  else if dcontains statement "columns_to_modify" then alterModifyColumns e statement
  else if dcontains statement "check" then alterAddCheck e statement
  else if dcontains statement "unique" then setUniqueColumnsFromAlter statement (setAlterToTableData "unique" statement e)
  else if dcontains statement "default" then setDefaultColumnsFromAlter statement (setAlterToTableData "default" statement e)
  else if dcontains statement "primary_key" then setAlterToTableData "primary_key" statement e
  else e

/-- One emitted result slot: a pass-through record, or a reference into
the table object store (modelling the Python aliasing between
`final_result` and `tables_dict` described in the header comment). -/
inductive ResItem where
  | passthrough (d : Dict)
  | tableRef (i : Nat)
deriving Repr, DecidableEq

/-- The mutable state of one `Output` run: `tables_dict` split into a
key-to-object-id registry plus an append-only object store (so that a
later CREATE with a colliding key rebinds the registry while emitted
references keep pointing at the old object, as in Python), and the
`final_result` slots. -/
structure OState where
  registry : List ((Value × Value) × Nat) := []
  objects : List Dict := []
  final : List ResItem := []
deriving Repr, DecidableEq

/-- Registry lookup (`self.tables_dict.get(table_id)`). -/
def rlookup : List ((Value × Value) × Nat) → (Value × Value) → Option Nat
  | [], _ => none
  | (k', i) :: rest, k => if k' = k then some i else rlookup rest k

/-- Registry assignment (`self.tables_dict[table_id] = ...`): replace
in place or append. -/
def rset : List ((Value × Value) × Nat) → (Value × Value) → Nat → List ((Value × Value) × Nat)
  | [], k, i => [(k, i)]
  | (k', i') :: rest, k, i => if k' = k then (k, i) :: rest else (k', i') :: rset rest k i

/-- `Output.__init__`: the schema key is `dataset` for bigquery and
`schema` otherwise (core.py lines 20-23). -/
def schemaKey (mode : String) : String := if mode = "bigquery" then "dataset" else "schema"

/-- The unknown-table error text of `Output.get_table_from_tables_data`
(core.py lines 35-37), naming both components of the missing key. -/
def unknownTableMsg (tid : Value × Value) : String :=
  "TABLE " ++ tid.1.display ++ " with SCHEMA " ++ tid.2.display ++ " does not exists in tables data"

/-- `Output.get_table_from_tables_data` (core.py lines 30-38): return
the registered entity or raise.  The `.error` on a dangling object id is
unreachable: the engine only stores ids of appended objects. -/
def getTableFromTablesData (st : OState) (schema tableName : Value) : Except String (Nat × Dict) :=
  let tid := getTableId schema tableName
  match rlookup st.registry tid with
  | none => .error (unknownTableMsg tid)
  | some i =>
    match st.objects.get? i with
    | some e => .ok (i, e)
    | none => .error "internal: dangling table reference"

/-- In-place mutation of a registered entity object. -/
def setObj (st : OState) (i : Nat) (e : Dict) : OState :=
  { st with objects := st.objects.set i e }

/-- `Output.add_alter_to_table` (core.py lines 55-83). -/
def addAlterToTable (st : OState) (statement : Dict) : Except String OState :=
  match getTableFromTablesData st (dgetD statement "schema") (dgetD statement "alter_table_name") with
  | .error msg => .error msg
  | .ok (i, e) => .ok (setObj st i (applyAlterStmt e statement))

/-- `Output.clean_up_index_statement` (core.py lines 40-45). -/
def cleanUpIndexStatement (mode : String) (statement : Dict) : Dict :=
  let s1 := derase (derase statement (schemaKey mode)) "table_name"
  if mode ≠ "mssql" then derase s1 "clustered" else s1

/-- `Output.add_index_to_table` (core.py lines 47-53). -/
def addIndexToTable (mode : String) (st : OState) (statement : Dict) : Except String OState :=
  match getTableFromTablesData st (dgetD statement (schemaKey mode)) (dgetD statement "table_name") with
  | .error msg => .error msg
  | .ok (i, e) =>
    let s1 := cleanUpIndexStatement mode statement
    .ok (setObj st i (dset e "index" (.vlist ((dgetD e "index").asList ++ [.vdict s1]))))

/-- Modelled from the spec: `dialects_clean_up` lives in
`simple_ddl_parser/output/dialects.py`, which is not part of the
sources under `src/`.  For non-table pass-through records the spec says
"everything else passes through unchanged" (section 2) and "the record
is still emitted unchanged downstream rather than dropped" (section 7),
so it is modelled as the identity. -/
def dialectsCleanUp (_mode : String) (data : Dict) : Dict := data

/-- `Output.process_statement_data` (core.py lines 85-102): register and
emit a table entity when `table_name` is truthy, else pass the record
through. -/
def processStatementData (mode : String) (st : OState) (statementData : Dict) : OState :=
  if (dgetD statementData "table_name").truthy then
    let tableData := tableDataInit (dset statementData "output_mode" (.vstr mode))
    let tid := getTableId (dgetD tableData (schemaKey mode)) (dgetD tableData "table_name")
    { st with registry := rset st.registry tid st.objects.length,
              objects := st.objects ++ [tableData],
              final := st.final ++ [.tableRef st.objects.length] }
  else
    { st with final := st.final ++ [.passthrough (dialectsCleanUp mode statementData)] }

/-- `Output.process_alter_and_index_result` (core.py lines 104-109):
note it tests truthiness of the values, not key presence. -/
def processAlterAndIndexResult (mode : String) (st : OState) (statement : Dict) : Except String OState :=
  if (dgetD statement "index_name").truthy then addIndexToTable mode st statement
  else if (dgetD statement "alter_table_name").truthy then addAlterToTable st statement
  else .ok st

/-- One iteration of the `Output.format` loop (core.py lines 150-157):
key presence of `index_name` / `alter_table_name` routes the record. -/
def processStatement (mode : String) (st : OState) (statement : Dict) : Except String OState :=
  if dcontains statement "index_name" || dcontains statement "alter_table_name" then
    processAlterAndIndexResult mode st statement
  else .ok (processStatementData mode st statement)

/-- The `Output.format` fold over the statement stream; the first
raised error aborts the run. -/
def processStmts (mode : String) : List Dict → OState → Except String OState
  | [], st => .ok st
  | s :: rest, st =>
    match processStatement mode st s with
    | .error msg => .error msg
    | .ok st1 => processStmts mode rest st1

/-- Materialize `final_result`: pass-through records as they are, table
slots as the `to_dict` of the (final state of the) referenced object. -/
def finalOutput (st : OState) : List Dict :=
  st.final.map (fun item => match item with
    | .passthrough d => d
    | .tableRef i => toDict ((st.objects.get? i).getD []))

/-- The `keys_map` of `Output.group_by_type_result` (core.py lines
121-131), in its fixed insertion order. -/
def groupKeysMap : List (String × String) :=
  [("table_name", "tables"), ("sequence_name", "sequences"), ("type_name", "types"),
   ("domain_name", "domains"), ("schema_name", "schemas"), ("tablespace_name", "tablespaces"),
   ("database_name", "databases"), ("value", "ddl_properties"), ("comments", "comments")]

/-- The initial `result_as_dict` of `Output.group_by_type_result`
(core.py lines 112-120). -/
def groupInit : Dict :=
  [("tables", .vlist []), ("types", .vlist []), ("sequences", .vlist []),
   ("domains", .vlist []), ("schemas", .vlist []), ("ddl_properties", .vlist []),
   ("comments", .vlist [])]

/-- Route one entity: first discriminator key present wins; a bucket
missing from `result_as_dict` (tablespaces, databases) is created on
demand; `comments` entities are flattened. -/
def groupRoute (res : Dict) (item : Dict) : Dict :=
  match groupKeysMap.find? (fun km => dcontains item km.1) with
  | none => res
  | some (key, bucket) =>
    let res1 := if dcontains res bucket then res else dset res bucket (.vlist [])
    let cur := (dgetD res1 bucket).asList
    if key ≠ "comments" then dset res1 bucket (.vlist (cur ++ [.vdict item]))
    else dset res1 bucket (.vlist (cur ++ (dgetD item "comments").asList))

/-- `Output.group_by_type_result` (core.py lines 111-147). -/
def groupByTypeResult (items : List Dict) : Dict :=
  let res := items.foldl groupRoute groupInit
  if dgetD res "comments" = .vlist [] then derase res "comments" else res

/-- The two shapes `Output.format` can leave in `final_result`. -/
inductive FormatOut where
  | flat (items : List Dict)
  | grouped (d : Dict)
deriving Repr, DecidableEq

/-- `Output.format` (core.py lines 149-160), end to end. -/
def formatRun (stmts : List Dict) (mode : String) (groupByType : Bool) : Except String FormatOut :=
  match processStmts mode stmts {} with
  | .error msg => .error msg
  | .ok st =>
    let items := finalOutput st
    .ok (if groupByType then .grouped (groupByTypeResult items) else .flat items)

/-! ## General lemmas -/

theorem truthy_dgetD_contains {d : Dict} {k : String} (h : (dgetD d k).truthy = true) :
    dcontains d k = true := by
  unfold dgetD at h
  unfold dcontains
  cases hl : dlookup d k with
  | none => rw [hl] at h; simp [Option.getD, Value.truthy] at h
  | some v => simp [hl]

theorem processStmts_append (mode : String) (l1 l2 : List Dict) (st : OState) :
    processStmts mode (l1 ++ l2) st =
      (match processStmts mode l1 st with
       | .error m => .error m
       | .ok st1 => processStmts mode l2 st1) := by
  induction l1 generalizing st with
  | nil => simp [processStmts]
  | cons s rest ih =>
    simp only [List.cons_append, processStmts]
    cases processStatement mode st s with
    | error m => simp
    | ok st1 => simp [ih st1]

theorem dlookup_dset_self : ∀ (d : Dict) (k : String) (v : Value), dlookup (dset d k v) k = some v := by
  intro d k v
  induction d with
  | nil => simp [dset, dlookup]
  | cons kv rest ih =>
    obtain ⟨k', v'⟩ := kv
    by_cases h : k' = k
    · simp [dset, h, dlookup]
    · simp [dset, h, dlookup, ih]

theorem dlookup_dset_ne : ∀ (d : Dict) (k k' : String) (v : Value), k ≠ k' →
    dlookup (dset d k v) k' = dlookup d k' := by
  intro d k k' v hne
  induction d with
  | nil => simp [dset, dlookup, hne]
  | cons kv rest ih =>
    obtain ⟨k0, v0⟩ := kv
    by_cases h : k0 = k
    · subst h
      simp [dset, dlookup, hne]
    · simp [dset, h, dlookup]
      by_cases h2 : k0 = k'
      · simp [h2]
      · simp [h2, ih]

theorem dgetD_dset_self (d : Dict) (k : String) (v : Value) : dgetD (dset d k v) k = v := by
  simp [dgetD, dlookup_dset_self]

theorem dgetD_dset_ne (d : Dict) (k k' : String) (v : Value) (h : k ≠ k') :
    dgetD (dset d k v) k' = dgetD d k' := by
  simp [dgetD, dlookup_dset_ne d k k' v h]

theorem ecols_setAlter (e : Dict) (a : List (String × Value)) : ecols (setAlter e a) = ecols e := by
  simp [ecols, setAlter, dgetD_dset_ne _ _ _ _ (by decide : "alter" ≠ "columns")]

theorem ealter_setCols (e : Dict) (c : List Value) : ealter (setCols e c) = ealter e := by
  simp [ealter, setCols, dgetD_dset_ne _ _ _ _ (by decide : "columns" ≠ "alter")]

theorem ecols_setCols (e : Dict) (c : List Value) : ecols (setCols e c) = c := by
  simp [ecols, setCols, dgetD_dset_self, Value.asList]

theorem ealter_setAlter (e : Dict) (a : List (String × Value)) : ealter (setAlter e a) = a := by
  simp [ealter, setAlter, dgetD_dset_self, Value.asDict]

/-! ## C1: unknown-table lookup raises; registered lookup succeeds;
the error aborts the whole run -/

/-- C1: an ALTER or CREATE INDEX record whose `(schema, table)` key has
no registered entity makes the lookup raise the "does not exists" error
naming both components of the missing key, and that error aborts the
whole `format` run; when the key is registered the lookup returns the
registered entity. -/
theorem claim_C1 :
    (∀ (st : OState) (schema tbl : Value),
       rlookup st.registry (getTableId schema tbl) = none →
       getTableFromTablesData st schema tbl = .error (unknownTableMsg (getTableId schema tbl))) ∧
    (∀ (st : OState) (schema tbl : Value) (i : Nat) (e : Dict),
       rlookup st.registry (getTableId schema tbl) = some i →
       st.objects.get? i = some e →
       getTableFromTablesData st schema tbl = .ok (i, e)) ∧
    (∀ (mode : String) (gbt : Bool) (pre : List Dict) (stmt : Dict) (rest : List Dict) (st : OState),
       processStmts mode pre {} = .ok st →
       (dgetD stmt "alter_table_name").truthy = true →
       (dgetD stmt "index_name").truthy = false →
       rlookup st.registry (getTableId (dgetD stmt "schema") (dgetD stmt "alter_table_name")) = none →
       formatRun (pre ++ stmt :: rest) mode gbt =
         .error (unknownTableMsg (getTableId (dgetD stmt "schema") (dgetD stmt "alter_table_name")))) ∧
    (∀ (mode : String) (gbt : Bool) (pre : List Dict) (stmt : Dict) (rest : List Dict) (st : OState),
       processStmts mode pre {} = .ok st →
       (dgetD stmt "index_name").truthy = true →
       rlookup st.registry (getTableId (dgetD stmt (schemaKey mode)) (dgetD stmt "table_name")) = none →
       formatRun (pre ++ stmt :: rest) mode gbt =
         .error (unknownTableMsg (getTableId (dgetD stmt (schemaKey mode)) (dgetD stmt "table_name")))) := by
  refine ⟨?_, ?_, ?_, ?_⟩
  · intro st schema tbl h
    simp [getTableFromTablesData, h]
  · intro st schema tbl i e h1 h2
    rw [List.get?_eq_getElem?] at h2
    simp [getTableFromTablesData, h1, h2]
  · intro mode gbt pre stmt rest st hpre halter hidx hreg
    have hroute : dcontains stmt "alter_table_name" = true := truthy_dgetD_contains halter
    have hps : processStatement mode st stmt =
        .error (unknownTableMsg (getTableId (dgetD stmt "schema") (dgetD stmt "alter_table_name"))) := by
      simp [processStatement, hroute, processAlterAndIndexResult, hidx, halter,
            addAlterToTable, getTableFromTablesData, hreg]
    unfold formatRun
    rw [processStmts_append, hpre]
    simp only [processStmts]
    rw [hps]
  · intro mode gbt pre stmt rest st hpre hidx hreg
    have hroute : dcontains stmt "index_name" = true := truthy_dgetD_contains hidx
    have hps : processStatement mode st stmt =
        .error (unknownTableMsg (getTableId (dgetD stmt (schemaKey mode)) (dgetD stmt "table_name"))) := by
      simp [processStatement, hroute, processAlterAndIndexResult, hidx,
            addIndexToTable, getTableFromTablesData, hreg]
    unfold formatRun
    rw [processStmts_append, hpre]
    simp only [processStmts]
    rw [hps]

/-- C1 witness: a concrete unregistered alter aborts a concrete run
with the named error, and a registered table is returned. -/
theorem claim_C1_witness :
    getTableFromTablesData {} (.vstr "s") (.vstr "missing") =
      .error (unknownTableMsg (.vstr "missing", .vstr "s")) ∧
    getTableFromTablesData
        { registry := [((.vstr "t", .vstr "s"), 0)], objects := [[("table_name", .vstr "t")]] }
        (.vstr "s") (.vstr "t") = .ok (0, [("table_name", .vstr "t")]) ∧
    formatRun [[("alter_table_name", .vstr "missing"), ("schema", .vstr "s"),
                ("unique", .vdict [("columns", .vlist [.vstr "email"])])]] "sql" false =
      .error (unknownTableMsg (.vstr "missing", .vstr "s")) := by
  refine ⟨claim_C1.1 {} (.vstr "s") (.vstr "missing") rfl,
          claim_C1.2.1 _ (.vstr "s") (.vstr "t") 0 [("table_name", .vstr "t")] rfl rfl,
          ?_⟩
  exact claim_C1.2.2.1 "sql" false []
    [("alter_table_name", .vstr "missing"), ("schema", .vstr "s"),
     ("unique", .vdict [("columns", .vlist [.vstr "email"])])] [] {} rfl rfl rfl rfl

/-! ## C10: a no-match ALTER DROP leaves the columns unchanged but still
creates an empty `dropped_columns` ledger slot -/

theorem foldl_dropOne_nomatch : ∀ (L : List Value) (e : Dict),
    (∀ n ∈ L, findColIdx (ecols e) n.asStr = none) → L.foldl dropOne e = e := by
  intro L
  induction L with
  | nil => intro e _; rfl
  | cons n rest ih =>
    intro e h
    have h1 : dropOne e n = e := by
      unfold dropOne
      rw [h n (by simp)]
    rw [List.foldl_cons, h1]
    exact ih e (fun m hm => h m (by simp [hm]))

/-- C10: an ALTER DROP COLUMN whose normalized names match no live
column leaves the live columns unchanged, yet (when the ledger slot was
not already truthy) installs a `dropped_columns` entry equal to the
empty list. -/
theorem claim_C10 (e stmt : Dict)
    (hslot : (dgetD (ealter e) "dropped_columns").truthy = false)
    (hnomatch : ∀ n ∈ (dgetD stmt "columns_to_drop").asList, findColIdx (ecols e) n.asStr = none) :
    ecols (alterDropColumns e stmt) = ecols e ∧
    dgetD (ealter (alterDropColumns e stmt)) "dropped_columns" = .vlist [] := by
  unfold alterDropColumns
  have hcols1 : ecols (setAlter e (alterEnsure (ealter e) "dropped_columns")) = ecols e :=
    ecols_setAlter _ _
  have hfold : (dgetD stmt "columns_to_drop").asList.foldl dropOne
      (setAlter e (alterEnsure (ealter e) "dropped_columns")) =
      setAlter e (alterEnsure (ealter e) "dropped_columns") := by
    apply foldl_dropOne_nomatch
    intro n hn
    rw [hcols1]
    exact hnomatch n hn
  rw [hfold]
  refine ⟨hcols1, ?_⟩
  rw [ealter_setAlter]
  unfold alterEnsure
  rw [hslot]
  simp [dgetD_dset_self]

/-- C10 witness: dropping the absent column `zzz` from a table with one
column `a` keeps the column and records an empty ledger slot. -/
theorem claim_C10_witness :
    ecols (alterDropColumns
        [("columns", .vlist [.vdict [("name", .vstr "a")]]), ("alter", .vdict [])]
        [("columns_to_drop", .vlist [.vstr "zzz"])]) = [.vdict [("name", .vstr "a")]] ∧
    dgetD (ealter (alterDropColumns
        [("columns", .vlist [.vdict [("name", .vstr "a")]]), ("alter", .vdict [])]
        [("columns_to_drop", .vlist [.vstr "zzz"])])) "dropped_columns" = .vlist [] := by
  have h := claim_C10
    [("columns", .vlist [.vdict [("name", .vstr "a")]]), ("alter", .vdict [])]
    [("columns_to_drop", .vlist [.vstr "zzz"])]
    (by decide) (by decide)
  exact h

/-! ## C7: drop / modify record only the most recent column object -/

theorem alterDropColumns_single (e stmt : Dict) (n : Value) (i : Nat)
    (hs : dgetD stmt "columns_to_drop" = .vlist [n])
    (hf : findColIdx (ecols e) n.asStr = some i) :
    dgetD (ealter (alterDropColumns e stmt)) "dropped_columns" = (ecols e).getD i .vnone ∧
    ecols (alterDropColumns e stmt) = (ecols e).eraseIdx i := by
  unfold alterDropColumns
  rw [hs]
  simp only [Value.asList, List.foldl_cons, List.foldl_nil]
  have hc1 : ecols (setAlter e (alterEnsure (ealter e) "dropped_columns")) = ecols e :=
    ecols_setAlter _ _
  unfold dropOne
  rw [hc1, hf]
  constructor
  · rw [ealter_setCols, ealter_setAlter, dgetD_dset_self]
  · rw [ecols_setCols, ecols_setAlter, hc1]

theorem alterModifyColumns_single (e stmt : Dict) (c : Value) (i : Nat)
    (hs : dgetD stmt "columns_to_modify" = .vlist [c])
    (hf : findColIdx (ecols e) ((cget c "name").asStr) = some i) :
    dgetD (ealter (alterModifyColumns e stmt)) "modified_columns" = (ecols e).getD i .vnone ∧
    ecols (alterModifyColumns e stmt) = (ecols e).set i c := by
  unfold alterModifyColumns
  rw [hs]
  simp only [Value.asList, List.foldl_cons, List.foldl_nil]
  have hc1 : ecols (setAlter e (alterEnsure (ealter e) "modified_columns")) = ecols e :=
    ecols_setAlter _ _
  unfold modifyOne
  rw [hc1, hf]
  constructor
  · rw [ealter_setCols, ealter_setAlter, dgetD_dset_self]
  · rw [ecols_setCols, ecols_setAlter, hc1]

/-- C7: after two matching ALTER DROP (resp. MODIFY) operations in
sequence, the `dropped_columns` (resp. `modified_columns`) ledger slot
holds exactly the single column object removed (resp. replaced) by the
second operation — the slot is overwritten, not accumulated. -/
theorem claim_C7 :
    (∀ (e s1 s2 : Dict) (n1 n2 : Value) (i1 i2 : Nat),
       dgetD s1 "columns_to_drop" = .vlist [n1] →
       dgetD s2 "columns_to_drop" = .vlist [n2] →
       findColIdx (ecols e) n1.asStr = some i1 →
       findColIdx (ecols (alterDropColumns e s1)) n2.asStr = some i2 →
       dgetD (ealter (alterDropColumns (alterDropColumns e s1) s2)) "dropped_columns" =
         (ecols (alterDropColumns e s1)).getD i2 .vnone) ∧
    (∀ (e s1 s2 : Dict) (c1 c2 : Value) (i1 i2 : Nat),
       dgetD s1 "columns_to_modify" = .vlist [c1] →
       dgetD s2 "columns_to_modify" = .vlist [c2] →
       findColIdx (ecols e) ((cget c1 "name").asStr) = some i1 →
       findColIdx (ecols (alterModifyColumns e s1)) ((cget c2 "name").asStr) = some i2 →
       dgetD (ealter (alterModifyColumns (alterModifyColumns e s1) s2)) "modified_columns" =
         (ecols (alterModifyColumns e s1)).getD i2 .vnone) := by
  constructor
  · intro e s1 s2 n1 n2 i1 i2 hs1 hs2 hf1 hf2
    exact (alterDropColumns_single (alterDropColumns e s1) s2 n2 i2 hs2 hf2).1
  · intro e s1 s2 c1 c2 i1 i2 hs1 hs2 hf1 hf2
    exact (alterModifyColumns_single (alterModifyColumns e s1) s2 c2 i2 hs2 hf2).1

/-- C7 witness: dropping `a` then `b` on a two-column table leaves only
the column object `b` in the ledger slot (and concretely, not a history
of both). -/
theorem claim_C7_witness :
    dgetD (ealter (alterDropColumns (alterDropColumns
        [("columns", .vlist [.vdict [("name", .vstr "a")], .vdict [("name", .vstr "b")]]),
         ("alter", .vdict [])]
        [("columns_to_drop", .vlist [.vstr "a"])])
        [("columns_to_drop", .vlist [.vstr "b"])])) "dropped_columns" =
      .vdict [("name", .vstr "b")] ∧
    dgetD (ealter (alterModifyColumns (alterModifyColumns
        [("columns", .vlist [.vdict [("name", .vstr "a")], .vdict [("name", .vstr "b")]]),
         ("alter", .vdict [])]
        [("columns_to_modify", .vlist [.vdict [("name", .vstr "a"), ("type", .vstr "int")]])])
        [("columns_to_modify", .vlist [.vdict [("name", .vstr "b"), ("type", .vstr "text")]])]))
      "modified_columns" = .vdict [("name", .vstr "b")] := by
  constructor
  · have h := claim_C7.1
      [("columns", .vlist [.vdict [("name", .vstr "a")], .vdict [("name", .vstr "b")]]),
       ("alter", .vdict [])]
      [("columns_to_drop", .vlist [.vstr "a"])]
      [("columns_to_drop", .vlist [.vstr "b"])]
      (.vstr "a") (.vstr "b") 0 0 (by decide) (by decide) (by decide) (by decide)
    exact h.trans (by decide)
  · have h := claim_C7.2
      [("columns", .vlist [.vdict [("name", .vstr "a")], .vdict [("name", .vstr "b")]]),
       ("alter", .vdict [])]
      [("columns_to_modify", .vlist [.vdict [("name", .vstr "a"), ("type", .vstr "int")]])]
      [("columns_to_modify", .vlist [.vdict [("name", .vstr "b"), ("type", .vstr "text")]])]
      (.vdict [("name", .vstr "a"), ("type", .vstr "int")])
      (.vdict [("name", .vstr "b"), ("type", .vstr "text")]) 0 1
      (by decide) (by decide) (by decide) (by decide)
    exact h.trans (by decide)

/-! ## C9: grouped result shape, routing, comments flattening -/

theorem dcontains_dset_self (d : Dict) (k : String) (v : Value) :
    dcontains (dset d k v) k = true := by
  simp [dcontains, dlookup_dset_self]

theorem dcontains_dset_mono (d : Dict) (k k' : String) (v : Value) (h : dcontains d k' = true) :
    dcontains (dset d k v) k' = true := by
  by_cases hk : k = k'
  · subst hk
    exact dcontains_dset_self d k v
  · unfold dcontains
    rw [dlookup_dset_ne d k k' v hk]
    exact h

theorem dlookup_derase_ne : ∀ (d : Dict) (k k' : String), k' ≠ k →
    dlookup (derase d k') k = dlookup d k := by
  intro d k k' h
  induction d with
  | nil => rfl
  | cons kv rest ih =>
    obtain ⟨k0, v0⟩ := kv
    by_cases h0 : k0 = k'
    · subst h0
      simp [derase, dlookup, h]
    · simp only [derase, h0, if_false, dlookup]
      by_cases h1 : k0 = k
      · simp [h1]
      · simp [h1, ih]

theorem dgetD_derase_ne (d : Dict) (k k' : String) (h : k' ≠ k) :
    dgetD (derase d k') k = dgetD d k := by
  simp [dgetD, dlookup_derase_ne d k k' h]

theorem dcontains_derase_ne (d : Dict) (k k' : String) (h : k' ≠ k) :
    dcontains (derase d k') k = dcontains d k := by
  simp [dcontains, dlookup_derase_ne d k k' h]

/-- The key list of a dict. -/
def dkeys (d : Dict) : List String := d.map Prod.fst

theorem dkeys_cons (k : String) (v : Value) (d : Dict) :
    dkeys ((k, v) :: d) = k :: dkeys d := rfl

theorem dlookup_eq_none_of_not_mem : ∀ (d : Dict) (k : String), k ∉ dkeys d →
    dlookup d k = none := by
  intro d k h
  induction d with
  | nil => rfl
  | cons kv rest ih =>
    obtain ⟨k0, v0⟩ := kv
    rw [dkeys_cons] at h
    have h1 : ¬ (k0 = k) := fun hh => h (by rw [← hh]; exact List.mem_cons_self _ _)
    have h2 : k ∉ dkeys rest := fun hh => h (List.mem_cons_of_mem _ hh)
    simp only [dlookup, h1, if_false]
    exact ih h2

theorem dlookup_derase_self : ∀ (d : Dict) (k : String), (dkeys d).Nodup →
    dlookup (derase d k) k = none := by
  intro d k h
  induction d with
  | nil => rfl
  | cons kv rest ih =>
    obtain ⟨k0, v0⟩ := kv
    rw [dkeys_cons, List.nodup_cons] at h
    by_cases h0 : k0 = k
    · subst h0
      simp only [derase, if_pos rfl]
      exact dlookup_eq_none_of_not_mem rest k0 h.1
    · simp only [derase, h0, if_false, dlookup]
      exact ih h.2

theorem dcontains_derase_self (d : Dict) (k : String) (h : (dkeys d).Nodup) :
    dcontains (derase d k) k = false := by
  simp [dcontains, dlookup_derase_self d k h]

theorem mem_dkeys_dset : ∀ (d : Dict) (k k' : String) (v : Value),
    k' ∈ dkeys (dset d k v) ↔ k' = k ∨ k' ∈ dkeys d := by
  intro d k k' v
  induction d with
  | nil => simp [dset, dkeys]
  | cons kv rest ih =>
    obtain ⟨k0, v0⟩ := kv
    by_cases h0 : k0 = k
    · subst h0
      simp [dset, dkeys]
    · simp only [dset, h0, if_false, dkeys_cons, List.mem_cons]
      rw [ih]
      tauto

theorem dkeys_dset_nodup : ∀ (d : Dict) (k : String) (v : Value),
    (dkeys d).Nodup → (dkeys (dset d k v)).Nodup := by
  intro d k v h
  induction d with
  | nil => simp [dset, dkeys]
  | cons kv rest ih =>
    obtain ⟨k0, v0⟩ := kv
    rw [dkeys_cons, List.nodup_cons] at h
    by_cases h0 : k0 = k
    · subst h0
      simp [dset, dkeys_cons, List.nodup_cons]
      exact h
    · simp only [dset, h0, if_false, dkeys_cons, List.nodup_cons]
      refine ⟨fun hmem => ?_, ih h.2⟩
      rcases (mem_dkeys_dset rest k k0 v).mp hmem with h1 | h1
      · exact h0 h1
      · exact h.1 h1

theorem groupRoute_contains_mono (res item : Dict) (k : String) (h : dcontains res k = true) :
    dcontains (groupRoute res item) k = true := by
  unfold groupRoute
  cases hf : groupKeysMap.find? (fun km => dcontains item km.1) with
  | none => exact h
  | some kb =>
    obtain ⟨key, bucket⟩ := kb
    rcases Bool.eq_false_or_eq_true (dcontains res bucket) with hc | hc <;>
      by_cases hk : key = "comments" <;>
        simp only [hc, hk, Bool.false_eq_true, if_false, if_true, ne_eq,
          not_true_eq_false, not_false_eq_true] <;>
        first
          | exact dcontains_dset_mono _ _ _ _ h
          | exact dcontains_dset_mono _ _ _ _ (dcontains_dset_mono _ _ _ _ h)

theorem groupRoute_nodup (res item : Dict) (h : (dkeys res).Nodup) :
    (dkeys (groupRoute res item)).Nodup := by
  unfold groupRoute
  cases hf : groupKeysMap.find? (fun km => dcontains item km.1) with
  | none => exact h
  | some kb =>
    obtain ⟨key, bucket⟩ := kb
    rcases Bool.eq_false_or_eq_true (dcontains res bucket) with hc | hc <;>
      by_cases hk : key = "comments" <;>
        simp only [hc, hk, Bool.false_eq_true, if_false, if_true, ne_eq,
          not_true_eq_false, not_false_eq_true] <;>
        first
          | exact dkeys_dset_nodup _ _ _ h
          | exact dkeys_dset_nodup _ _ _ (dkeys_dset_nodup _ _ _ h)

theorem groupFold_contains : ∀ (items : List Dict) (res : Dict) (k : String),
    dcontains res k = true → dcontains (items.foldl groupRoute res) k = true := by
  intro items
  induction items with
  | nil => intro res k h; exact h
  | cons item rest ih =>
    intro res k h
    exact ih (groupRoute res item) k (groupRoute_contains_mono res item k h)

theorem groupFold_nodup : ∀ (items : List Dict) (res : Dict),
    (dkeys res).Nodup → (dkeys (items.foldl groupRoute res)).Nodup := by
  intro items
  induction items with
  | nil => intro res h; exact h
  | cons item rest ih =>
    intro res h
    exact ih (groupRoute res item) (groupRoute_nodup res item h)

/-- The discriminator key an entity is routed by: the first key of the
fixed `keys_map` order the entity carries. -/
def routedKey (item : Dict) : Option String :=
  (groupKeysMap.find? (fun km => dcontains item km.1)).map Prod.fst

/-- The concatenation, in stream order, of the inner comment lists of
the entities that route to the `comments` bucket. -/
def flattenedComments : List Dict → List Value
  | [] => []
  | item :: rest =>
      (if routedKey item = some "comments" then (dgetD item "comments").asList else []) ++
        flattenedComments rest

theorem dlookup_of_dgetD_vlist (d : Dict) (k : String) (cs : List Value)
    (h : dgetD d k = .vlist cs) : dlookup d k = some (.vlist cs) := by
  unfold dgetD at h
  cases hx : dlookup d k with
  | none => rw [hx] at h; simp at h
  | some v => rw [hx] at h; simp at h; rw [h]

theorem groupRoute_comments_aux (res : Dict) (bucket : String) (hb : bucket ≠ "comments")
    (v : Value) :
    dgetD (dset (if dcontains res bucket = true then res else dset res bucket (.vlist []))
        bucket v) "comments" = dgetD res "comments" := by
  rcases Bool.eq_false_or_eq_true (dcontains res bucket) with hc | hc <;>
    simp only [hc, Bool.false_eq_true, if_false, if_true] <;>
    rw [dgetD_dset_ne _ _ _ _ hb]
  rw [dgetD_dset_ne _ _ _ _ hb]

theorem groupRoute_comments_step (res item : Dict) (cs : List Value)
    (h : dgetD res "comments" = .vlist cs) :
    dgetD (groupRoute res item) "comments" =
      .vlist (cs ++ (if routedKey item = some "comments" then (dgetD item "comments").asList
                     else [])) := by
  unfold groupRoute routedKey
  cases hf : groupKeysMap.find? (fun km => dcontains item km.1) with
  | none => simp [h]
  | some kb =>
    obtain ⟨key, bucket⟩ := kb
    have hmem := List.mem_of_find?_eq_some hf
    have hcb : dcontains res "comments" = true := by
      simp [dcontains, dlookup_of_dgetD_vlist res "comments" cs h]
    have hkb : (key = "comments") ↔ (bucket = "comments") := by
      simp only [groupKeysMap, List.mem_cons, List.not_mem_nil, or_false,
        Prod.mk.injEq] at hmem
      rcases hmem with ⟨h1, h2⟩ | ⟨h1, h2⟩ | ⟨h1, h2⟩ | ⟨h1, h2⟩ | ⟨h1, h2⟩ | ⟨h1, h2⟩ |
        ⟨h1, h2⟩ | ⟨h1, h2⟩ | ⟨h1, h2⟩ <;> subst h1 <;> subst h2 <;> decide
    by_cases hk : key = "comments"
    · have hb : bucket = "comments" := hkb.mp hk
      subst hk
      subst hb
      dsimp only
      simp only [ne_eq, eq_self_iff_true, not_true_eq_false, if_false, hcb, if_true,
        Option.map_some, Option.some.injEq]
      rw [dgetD_dset_self, h]
      simp [Value.asList]
    · have hb : bucket ≠ "comments" := fun hh => hk (hkb.mpr hh)
      dsimp only
      simp only [ne_eq, hk, not_false_eq_true, if_true, Option.map_some, Option.some.injEq]
      rw [groupRoute_comments_aux res bucket hb _, h]
      simp [hk]

theorem groupFold_comments : ∀ (items : List Dict) (res : Dict) (cs : List Value),
    dgetD res "comments" = .vlist cs →
    dgetD (items.foldl groupRoute res) "comments" = .vlist (cs ++ flattenedComments items) := by
  intro items
  induction items with
  | nil => intro res cs h; simpa [flattenedComments] using h
  | cons item rest ih =>
    intro res cs h
    rw [List.foldl_cons,
        ih (groupRoute res item) _ (groupRoute_comments_step res item cs h)]
    simp [flattenedComments, List.append_assoc]

/-- The buckets the grouped wrapper always starts with (besides
`comments`). -/
def groupMainKeys : List String :=
  ["tables", "types", "sequences", "domains", "schemas", "ddl_properties"]

/-- C9 counterexample: an entity carrying `tablespace_name` makes the
grouped wrapper contain a `tablespaces` key, so the wrapper does not
consist of exactly the keys tables, types, sequences, domains, schemas,
ddl_properties plus optional comments as claimed. -/
theorem claim_C9_counterexample :
    groupByTypeResult [[("tablespace_name", .vstr "tbsp")]] =
      [("tables", .vlist []), ("types", .vlist []), ("sequences", .vlist []),
       ("domains", .vlist []), ("schemas", .vlist []), ("ddl_properties", .vlist []),
       ("tablespaces", .vlist [.vdict [("tablespace_name", .vstr "tbsp")]])] ∧
    dcontains (groupByTypeResult [[("tablespace_name", .vstr "tbsp")]]) "tablespaces" = true := by
  constructor <;> decide

theorem groupRoute_eq_of_find (res item : Dict) (key bucket : String)
    (hfind : groupKeysMap.find? (fun km => dcontains item km.1) = some (key, bucket))
    (hk : key ≠ "comments") (hc : dcontains res bucket = true) :
    groupRoute res item =
      dset res bucket (.vlist ((dgetD res bucket).asList ++ [.vdict item])) := by
  unfold groupRoute
  rw [hfind]
  dsimp only
  rw [if_pos hk, if_pos hc]

theorem groupRoute_contains_of_find (res item : Dict) (key bucket : String)
    (hfind : groupKeysMap.find? (fun km => dcontains item km.1) = some (key, bucket))
    (hk : key ≠ "comments") :
    dcontains (groupRoute res item) bucket = true := by
  unfold groupRoute
  rw [hfind]
  dsimp only
  rw [if_pos hk]
  exact dcontains_dset_self _ _ _

/-- C9 (amended): with grouping enabled, each entity is routed by the
first discriminator key it carries in the fixed order; the six buckets
tables, types, sequences, domains, schemas, ddl_properties are always
present (even empty); the comments bucket is omitted exactly when the
flattened comment stream is empty and otherwise holds the flattened
inner lists; and, beyond the claim's fixed key set, an entity carrying
`tablespace_name` creates a `tablespaces` bucket on demand. -/
theorem claim_C9 :
    (∀ (items : List Dict) (k : String), k ∈ groupMainKeys →
       dcontains (groupByTypeResult items) k = true) ∧
    (∀ items : List Dict, flattenedComments items = [] →
       dcontains (groupByTypeResult items) "comments" = false) ∧
    (∀ items : List Dict, flattenedComments items ≠ [] →
       dgetD (groupByTypeResult items) "comments" = .vlist (flattenedComments items)) ∧
    (∀ (items : List Dict) (item : Dict), dcontains item "table_name" = true →
       dgetD (groupByTypeResult (items ++ [item])) "tables" =
         .vlist ((dgetD (items.foldl groupRoute groupInit) "tables").asList ++ [.vdict item])) ∧
    (∀ (items : List Dict) (item : Dict),
       dcontains item "table_name" = false → dcontains item "sequence_name" = false →
       dcontains item "type_name" = false → dcontains item "domain_name" = false →
       dcontains item "schema_name" = false → dcontains item "tablespace_name" = true →
       dcontains (groupByTypeResult (items ++ [item])) "tablespaces" = true) := by
  refine ⟨?_, ?_, ?_, ?_, ?_⟩
  · intro items k hk
    have hinit : dcontains groupInit k = true := by fin_cases hk <;> decide
    have hkc : ("comments" : String) ≠ k := by fin_cases hk <;> decide
    have hraw := groupFold_contains items groupInit k hinit
    unfold groupByTypeResult
    dsimp only
    split
    · rw [dcontains_derase_ne _ _ _ hkc]
      exact hraw
    · exact hraw
  · intro items hfc
    have hraw := groupFold_comments items groupInit [] (by decide)
    rw [hfc] at hraw
    simp only [List.nil_append] at hraw
    unfold groupByTypeResult
    dsimp only
    rw [if_pos hraw]
    exact dcontains_derase_self _ _ (groupFold_nodup items groupInit (by decide))
  · intro items hfc
    have hraw := groupFold_comments items groupInit [] (by decide)
    simp only [List.nil_append] at hraw
    have hne : ¬ (dgetD (items.foldl groupRoute groupInit) "comments" = .vlist []) := by
      rw [hraw]
      simp [hfc]
    unfold groupByTypeResult
    dsimp only
    rw [if_neg hne]
    exact hraw
  · intro items item h
    have hfind : groupKeysMap.find? (fun km => dcontains item km.1) =
        some ("table_name", "tables") := by
      simp [groupKeysMap, List.find?, h]
    have hcont : dcontains (items.foldl groupRoute groupInit) "tables" = true :=
      groupFold_contains items groupInit "tables" (by decide)
    unfold groupByTypeResult
    dsimp only
    rw [List.foldl_append]
    simp only [List.foldl_cons, List.foldl_nil]
    rw [groupRoute_eq_of_find _ _ _ _ hfind (by decide) hcont]
    split
    · rw [dgetD_derase_ne _ _ _ (by decide : ("comments" : String) ≠ "tables"),
          dgetD_dset_self]
    · rw [dgetD_dset_self]
  · intro items item h1 h2 h3 h4 h5 h6
    have hfind : groupKeysMap.find? (fun km => dcontains item km.1) =
        some ("tablespace_name", "tablespaces") := by
      simp [groupKeysMap, List.find?, h1, h2, h3, h4, h5, h6]
    have hgr : dcontains (groupRoute (items.foldl groupRoute groupInit) item) "tablespaces" = true :=
      groupRoute_contains_of_find _ _ _ _ hfind (by decide)
    unfold groupByTypeResult
    dsimp only
    rw [List.foldl_append]
    simp only [List.foldl_cons, List.foldl_nil]
    split
    · rw [dcontains_derase_ne _ _ _ (by decide : ("comments" : String) ≠ "tablespaces")]
      exact hgr
    · exact hgr

/-- C9 witness: concrete instances of each conjunct of the amended
claim. -/
theorem claim_C9_witness :
    dcontains (groupByTypeResult []) "tables" = true ∧
    dcontains (groupByTypeResult []) "comments" = false ∧
    dgetD (groupByTypeResult [[("comments", .vlist [.vstr "note"])]]) "comments" =
      .vlist [.vstr "note"] ∧
    dgetD (groupByTypeResult [[("table_name", .vstr "t"), ("value", .vstr "v")]]) "tables" =
      .vlist [.vdict [("table_name", .vstr "t"), ("value", .vstr "v")]] ∧
    dcontains (groupByTypeResult [[("tablespace_name", .vstr "x")]]) "tablespaces" = true := by
  refine ⟨claim_C9.1 [] "tables" (by decide), claim_C9.2.1 [] (by decide), ?_, ?_, ?_⟩
  · exact (claim_C9.2.2.1 [[("comments", .vlist [.vstr "note"])]] (by decide)).trans (by decide)
  · exact (claim_C9.2.2.2.1 [] [("table_name", .vstr "t"), ("value", .vstr "v")]
      (by decide)).trans (by decide)
  · exact claim_C9.2.2.2.2 [] [("tablespace_name", .vstr "x")]
      (by decide) (by decide) (by decide) (by decide) (by decide) (by decide)

/-! ## C8: records without a table_name -/

/-- C8 counterexample: an ALTER statement record has no (truthy)
`table_name`, yet it is not emitted in the final result at its stream
position (position 1 here): the run emits only the table entity.  So
"every statement record with no table_name is emitted unchanged" fails
for records routed to the alter/index handler. -/
theorem claim_C8_counterexample :
    (dgetD [("alter_table_name", .vstr "t"), ("schema", .vstr "s"),
            ("primary_key", .vdict [("columns", .vlist [.vstr "id"])])] "table_name").truthy
      = false ∧
    formatRun [[("schema", .vstr "s"), ("table_name", .vstr "t")],
        [("alter_table_name", .vstr "t"), ("schema", .vstr "s"),
         ("primary_key", .vdict [("columns", .vlist [.vstr "id"])])]] "sql" false =
      .ok (.flat
        [[("table_name", .vstr "t"), ("schema", .vstr "s"), ("primary_key", .vlist []),
          ("columns", .vlist []),
          ("alter", .vdict [("primary_keys", .vlist [.vdict [("columns", .vlist [.vstr "id"])]])]),
          ("checks", .vlist []), ("index", .vlist []), ("partitioned_by", .vlist []),
          ("tablespace", .vnone)]]) ∧
    ([("table_name", .vstr "t"), ("schema", .vstr "s"), ("primary_key", .vlist []),
      ("columns", .vlist []),
      ("alter", .vdict [("primary_keys", .vlist [.vdict [("columns", .vlist [.vstr "id"])]])]),
      ("checks", .vlist []), ("index", .vlist []), ("partitioned_by", .vlist []),
      ("tablespace", .vnone)] : Dict) ≠
      [("alter_table_name", .vstr "t"), ("schema", .vstr "s"),
       ("primary_key", .vdict [("columns", .vlist [.vstr "id"])])] := by
  refine ⟨by decide, by rfl, by decide⟩

/-- C8 (amended): every statement record that is not routed to the
alter/index handler (carries neither an `index_name` nor an
`alter_table_name` key) and has no truthy `table_name` is not
registered in the table registry and is appended to the final result
unchanged, at its stream position. -/
theorem claim_C8 (mode : String) (st : OState) (stmt : Dict)
    (h1 : dcontains stmt "index_name" = false)
    (h2 : dcontains stmt "alter_table_name" = false)
    (h3 : (dgetD stmt "table_name").truthy = false) :
    processStatement mode st stmt = .ok { st with final := st.final ++ [.passthrough stmt] } ∧
    finalOutput { st with final := st.final ++ [.passthrough stmt] } = finalOutput st ++ [stmt] := by
  constructor
  · simp [processStatement, h1, h2, processStatementData, h3, dialectsCleanUp]
  · simp [finalOutput]

/-- C8 witness: a sequence record with no table_name passes through
unchanged, with the registry and object store untouched. -/
theorem claim_C8_witness :
    processStatement "sql" {} [("sequence_name", .vstr "sq")] =
      .ok { registry := [], objects := [],
            final := [.passthrough [("sequence_name", .vstr "sq")]] } ∧
    finalOutput { registry := [], objects := [],
                  final := [.passthrough [("sequence_name", .vstr "sq")]] } =
      [[("sequence_name", .vstr "sq")]] := by
  exact claim_C8 "sql" {} [("sequence_name", .vstr "sq")] (by decide) (by decide) (by decide)

/-! ## C4: unique monotonicity -/

theorem cget_cset_ne (c : Value) (k k' : String) (v : Value) (h : k ≠ k') :
    cget (cset c k v) k' = cget c k' := by
  simp [cget, cset, Value.asDict, dgetD_dset_ne _ _ _ _ h]

theorem cget_cset_self (c : Value) (k : String) (v : Value) : cget (cset c k v) k = v := by
  simp [cget, cset, Value.asDict, dgetD_dset_self]

theorem cget_cerase_ne (c : Value) (k k' : String) (h : k' ≠ k) :
    cget (cerase c k') k = cget c k := by
  simp [cget, cerase, Value.asDict, dgetD_derase_ne _ _ _ h]

theorem ecols_dset_ne (e : Dict) (k : String) (v : Value) (h : k ≠ "columns") :
    ecols (dset e k v) = ecols e := by
  simp [ecols, dgetD_dset_ne _ _ _ _ h]

/-- Index-wise preservation of a truthy `unique` attribute from one
columns list to another. -/
def colUniquePres (cols cols' : List Value) : Prop :=
  ∀ (i : Nat) (c : Value), cols[i]? = some c → (cget c "unique").truthy = true →
    ∃ c', cols'[i]? = some c' ∧ (cget c' "unique").truthy = true

theorem colUniquePres_refl (cols : List Value) : colUniquePres cols cols :=
  fun _ c h hu => ⟨c, h, hu⟩

theorem colUniquePres_trans {a b c : List Value}
    (h1 : colUniquePres a b) (h2 : colUniquePres b c) : colUniquePres a c := by
  intro i x h hu
  obtain ⟨y, hy, huy⟩ := h1 i x h hu
  exact h2 i y hy huy

theorem colUniquePres_map {f : Value → Value}
    (hf : ∀ c, (cget c "unique").truthy = true → (cget (f c) "unique").truthy = true)
    (cols : List Value) : colUniquePres cols (cols.map f) := by
  intro i c h hu
  refine ⟨f c, ?_, hf c hu⟩
  rw [List.getElem?_map, h]
  rfl

theorem colUniquePres_append (cols L : List Value) : colUniquePres cols (cols ++ L) := by
  intro i c h hu
  have hlt : i < cols.length := (List.getElem?_eq_some.mp h).1
  exact ⟨c, (List.getElem?_append_left hlt).trans h, hu⟩

theorem renameOne_pres : ∀ (cols : List Value) (fn tn : Value),
    colUniquePres cols (renameOne cols fn tn) := by
  intro cols fn tn
  induction cols with
  | nil => intro i c h hu; simp at h
  | cons c0 rest ih =>
    intro i c h hu
    unfold renameOne
    by_cases hm : normalizeName fn.asStr = normalizeName ((cget c0 "name").asStr)
    · rw [if_pos hm]
      cases i with
      | zero =>
        simp only [List.getElem?_cons_zero, Option.some.injEq] at h
        subst h
        refine ⟨cset c0 "name" tn, by simp, ?_⟩
        rw [cget_cset_ne _ _ _ _ (by decide)]
        exact hu
      | succ n =>
        simp only [List.getElem?_cons_succ] at h ⊢
        exact ⟨c, h, hu⟩
    · rw [if_neg hm]
      cases i with
      | zero =>
        simp only [List.getElem?_cons_zero, Option.some.injEq] at h
        subst h
        exact ⟨c0, by simp, hu⟩
      | succ n =>
        simp only [List.getElem?_cons_succ] at h ⊢
        exact ih n c h hu

theorem foldRename_pres : ∀ (pairs : List Value) (cols : List Value),
    colUniquePres cols
      (pairs.foldl (fun cs p => renameOne cs (cget p "from") (cget p "to")) cols) := by
  intro pairs
  induction pairs with
  | nil => intro cols; exact colUniquePres_refl cols
  | cons p rest ih =>
    intro cols
    rw [List.foldl_cons]
    exact colUniquePres_trans (renameOne_pres cols _ _) (ih _)

theorem ecols_removePk (e : Dict) :
    ecols (removePkFromColumns e) = (ecols e).map (fun c => cerase c "primary_key") := by
  unfold removePkFromColumns
  rw [ecols_setCols]

theorem ecols_getPk (e : Dict) :
    ecols (getPkFromColumnsAndConstraints e) =
      (ecols e).map (fun c => cerase c "primary_key") := by
  unfold getPkFromColumnsAndConstraints
  dsimp only
  rw [ecols_dset_ne _ _ _ (by decide), ecols_removePk]

theorem populateKeys_pres (e : Dict) : colUniquePres (ecols e) (ecols (populateKeys e)) := by
  unfold populateKeys
  dsimp only
  have h1 : ∀ e1 : Dict,
      (e1 = getPkFromColumnsAndConstraints e ∨ e1 = removePkFromColumns e) →
      colUniquePres (ecols e) (ecols e1) := by
    intro e1 he1
    have : ecols e1 = (ecols e).map (fun c => cerase c "primary_key") := by
      rcases he1 with h | h <;> rw [h]
      · exact ecols_getPk e
      · exact ecols_removePk e
    rw [this]
    exact colUniquePres_map
      (fun c hc => by rw [cget_cerase_ne _ _ _ (by decide)]; exact hc) _
  set e1 := if ¬ (dgetD e "primary_key").truthy = true then getPkFromColumnsAndConstraints e
            else removePkFromColumns e with he1def
  have hpres1 : colUniquePres (ecols e) (ecols e1) := by
    apply h1
    rw [he1def]
    split
    · exact Or.inl rfl
    · exact Or.inr rfl
  set e2 := if (dgetD e1 "unique").truthy = true then addUniqueColumns e1 else e1 with he2def
  have hpres2 : colUniquePres (ecols e1) (ecols e2) := by
    rw [he2def]
    split
    · unfold addUniqueColumns
      rw [ecols_setCols]
      apply colUniquePres_map
      intro c hc
      split
      · rw [cget_cset_self]
        rfl
      · exact hc
    · exact colUniquePres_refl _
  have hpres3 : colUniquePres (ecols e2)
      (ecols (setCols e2 ((ecols e2).map (fun c =>
        if memIn (cget c "name") (dgetD e2 "primary_key") = true
        then cset c "nullable" (.vbool false) else c)))) := by
    rw [ecols_setCols]
    apply colUniquePres_map
    intro c hc
    split
    · rw [cget_cset_ne _ _ _ _ (by decide)]
      exact hc
    · exact hc
  exact colUniquePres_trans hpres1 (colUniquePres_trans hpres2 hpres3)

theorem normalizeRefColumns_pres (e : Dict) :
    colUniquePres (ecols e) (ecols (normalizeRefColumns e)) := by
  unfold normalizeRefColumns
  dsimp only
  rw [ecols_dset_ne _ _ _ (by decide)]
  generalize (dgetD e "ref_columns").asList = refs
  induction refs generalizing e with
  | nil => exact colUniquePres_refl _
  | cons r rest ih =>
    rw [List.foldl_cons]
    refine colUniquePres_trans (b := ecols (setCols e ((ecols e).map (fun column =>
      if cget r "name" = cget column "name"
      then cset column "references" (cerase r "name") else column)))) ?_ (ih _)
    rw [ecols_setCols]
    apply colUniquePres_map
    intro c hc
    split
    · rw [cget_cset_ne _ _ _ _ (by decide)]
      exact hc
    · exact hc

/-- C4 counterexample: a column marked unique stops being unique after
an ALTER MODIFY COLUMN naming it — the replacement column object simply
lacks the attribute, so a subsequent processing step does un-mark it. -/
theorem claim_C4_counterexample :
    (cget (((ecols ([("columns", .vlist [.vdict [("name", .vstr "a"), ("unique", .vbool true)]]),
        ("alter", .vdict [])] : Dict))[0]?).getD .vnone) "unique").truthy = true ∧
    (cget (((ecols (alterModifyColumns
        [("columns", .vlist [.vdict [("name", .vstr "a"), ("unique", .vbool true)]]),
         ("alter", .vdict [])]
        [("columns_to_modify", .vlist [.vdict [("name", .vstr "a"), ("type", .vstr "int")]])]))[0]?).getD
        .vnone) "unique").truthy = false := by
  constructor <;> decide

/-- C4 (amended): every processing step other than ALTER MODIFY COLUMN
(which replaces the column object wholesale) and ALTER DROP COLUMN
(which removes the column) preserves a truthy `unique` attribute at
every column position: adding columns, renaming, add-check, the alter
ledger appends, ALTER ADD UNIQUE / ADD DEFAULT propagation, build-time
key population and reference normalization, and any entity attribute
update outside `columns` (such as the index attach). -/
theorem claim_C4 :
    (∀ e stmt : Dict, colUniquePres (ecols e) (ecols (prepareAlterColumns e stmt))) ∧
    (∀ e stmt : Dict, colUniquePres (ecols e) (ecols (alterRenameColumns e stmt))) ∧
    (∀ e stmt : Dict, colUniquePres (ecols e) (ecols (alterAddCheck e stmt))) ∧
    (∀ (key : String) (stmt e : Dict),
       colUniquePres (ecols e) (ecols (setAlterToTableData key stmt e))) ∧
    (∀ stmt e : Dict, colUniquePres (ecols e) (ecols (setUniqueColumnsFromAlter stmt e))) ∧
    (∀ stmt e : Dict, colUniquePres (ecols e) (ecols (setDefaultColumnsFromAlter stmt e))) ∧
    (∀ e : Dict, colUniquePres (ecols e) (ecols (populateKeys e))) ∧
    (∀ e : Dict, colUniquePres (ecols e) (ecols (normalizeRefColumns e))) ∧
    (∀ (e : Dict) (k : String) (v : Value), k ≠ "columns" → ecols (dset e k v) = ecols e) := by
  refine ⟨?_, ?_, ?_, ?_, ?_, ?_, populateKeys_pres, normalizeRefColumns_pres, ecols_dset_ne⟩
  · intro e stmt
    unfold prepareAlterColumns
    dsimp only
    rw [ecols_setCols, ecols_setAlter]
    exact colUniquePres_append _ _
  · intro e stmt
    unfold alterRenameColumns
    dsimp only
    rw [ecols_setAlter, ecols_setCols]
    exact foldRename_pres _ _
  · intro e stmt
    unfold alterAddCheck
    dsimp only
    rw [ecols_setAlter]
    exact colUniquePres_refl _
  · intro key stmt e
    unfold setAlterToTableData
    dsimp only
    rw [ecols_setAlter]
    exact colUniquePres_refl _
  · intro stmt e
    unfold setUniqueColumnsFromAlter
    dsimp only
    rw [ecols_setCols]
    apply colUniquePres_map
    intro c hc
    split
    · rw [cget_cset_self]
      rfl
    · exact hc
  · intro stmt e
    unfold setDefaultColumnsFromAlter
    dsimp only
    rw [ecols_setCols]
    apply colUniquePres_map
    intro c hc
    split
    · rw [cget_cset_ne _ _ _ _ (by decide)]
      exact hc
    · exact hc

/-- C4 witness: concrete preservation through an ALTER ADD DEFAULT on a
unique column. -/
theorem claim_C4_witness :
    ∃ c', (ecols (setDefaultColumnsFromAlter
        [("default", .vdict [("columns", .vlist [.vstr "a"]), ("value", .vint 1)])]
        [("columns", .vlist [.vdict [("name", .vstr "a"), ("unique", .vbool true)]]),
         ("alter", .vdict [])]))[0]? = some c' ∧ (cget c' "unique").truthy = true := by
  exact claim_C4.2.2.2.2.2.1
    [("default", .vdict [("columns", .vlist [.vstr "a"]), ("value", .vint 1)])]
    [("columns", .vlist [.vdict [("name", .vstr "a"), ("unique", .vbool true)]]),
     ("alter", .vdict [])]
    0 (.vdict [("name", .vstr "a"), ("unique", .vbool true)]) (by decide) (by decide)

/-! ## C6: which ALTER comparisons are normalized -/

theorem findColIdx_norm_invariant (cols : List Value) (n n' : String)
    (h : normalizeName n = normalizeName n') :
    findColIdx cols n = findColIdx cols n' := by
  unfold findColIdx
  have hp : (fun column => decide (normalizeName n = normalizeName ((cget column "name").asStr))) =
      (fun column => decide (normalizeName n' = normalizeName ((cget column "name").asStr))) := by
    funext c
    rw [h]
  rw [hp]

/-- C6 counterexample: the ALTER ADD UNIQUE propagation compares names
with plain equality, not in normalized form: `email` and `EMAIL`
normalize identically, yet ALTER ADD UNIQUE on `email` does not mark
the column named `EMAIL`. -/
theorem claim_C6_counterexample :
    normalizeName "email" = normalizeName "EMAIL" ∧
    (cget (((ecols (setUniqueColumnsFromAlter
        [("unique", .vdict [("columns", .vlist [.vstr "email"])])]
        [("columns", .vlist [.vdict [("name", .vstr "EMAIL")]]),
         ("alter", .vdict [])]))[0]?).getD .vnone) "unique").truthy = false := by
  constructor <;> decide

/-- C6 (amended): the drop / modify / rename matchers compare names in
the normalized form (so normalize-equal names behave identically), but
the ALTER ADD UNIQUE and ALTER ADD DEFAULT propagation onto columns
compares names by plain equality. -/
theorem claim_C6 :
    (∀ (cols : List Value) (n n' : String), normalizeName n = normalizeName n' →
       findColIdx cols n = findColIdx cols n') ∧
    (∀ (cols : List Value) (fn fn' tn : Value),
       normalizeName fn.asStr = normalizeName fn'.asStr →
       renameOne cols fn tn = renameOne cols fn' tn) ∧
    (∀ (e : Dict) (n n' : String), normalizeName n = normalizeName n' →
       alterDropColumns e [("columns_to_drop", .vlist [.vstr n])] =
         alterDropColumns e [("columns_to_drop", .vlist [.vstr n'])]) ∧
    (∀ (stmt e : Dict) (i : Nat) (c : Value), (ecols e)[i]? = some c →
       (ecols (setUniqueColumnsFromAlter stmt e))[i]? =
         some (if (vdGet (dgetD stmt "unique") "columns" .vnone).asList.contains (cget c "name")
               then cset c "unique" (.vbool true) else c)) ∧
    (∀ (stmt e : Dict) (i : Nat) (c : Value), (ecols e)[i]? = some c →
       (ecols (setDefaultColumnsFromAlter stmt e))[i]? =
         some (if (vdGet (dgetD stmt "default") "columns" .vnone).truthy &&
                  (vdGet (dgetD stmt "default") "columns" .vnone).asList.contains (cget c "name")
               then cset c "default" (vdGet (dgetD stmt "default") "value" .vnone) else c)) := by
  refine ⟨findColIdx_norm_invariant, ?_, ?_, ?_, ?_⟩
  · intro cols fn fn' tn h
    induction cols with
    | nil => rfl
    | cons c0 rest ih =>
      unfold renameOne
      rw [h, ih]
  · intro e n n' h
    unfold alterDropColumns
    have h1 : ∀ m : String,
        (dgetD [("columns_to_drop", Value.vlist [Value.vstr m])] "columns_to_drop").asList =
          [Value.vstr m] := by
      intro m
      simp [dgetD, dlookup, Value.asList]
    rw [h1, h1]
    simp only [List.foldl_cons, List.foldl_nil]
    unfold dropOne
    rw [show (Value.vstr n).asStr = n from rfl, show (Value.vstr n').asStr = n' from rfl,
        findColIdx_norm_invariant _ n n' h]
  · intro stmt e i c h
    unfold setUniqueColumnsFromAlter
    dsimp only
    rw [ecols_setCols, List.getElem?_map, h]
    rfl
  · intro stmt e i c h
    unfold setDefaultColumnsFromAlter
    dsimp only
    rw [ecols_setCols, List.getElem?_map, h]
    rfl

/-- C6 witness: dropping `EMAIL` and dropping `email` act identically
on a table whose column is named `email`, while ALTER ADD UNIQUE on
`email` leaves the column named `EMAIL` untouched. -/
theorem claim_C6_witness :
    alterDropColumns [("columns", .vlist [.vdict [("name", .vstr "email")]]), ("alter", .vdict [])]
        [("columns_to_drop", .vlist [.vstr "EMAIL"])] =
      alterDropColumns [("columns", .vlist [.vdict [("name", .vstr "email")]]), ("alter", .vdict [])]
        [("columns_to_drop", .vlist [.vstr "email"])] ∧
    (ecols (setUniqueColumnsFromAlter [("unique", .vdict [("columns", .vlist [.vstr "email"])])]
        [("columns", .vlist [.vdict [("name", .vstr "EMAIL")]]), ("alter", .vdict [])]))[0]? =
      some (.vdict [("name", .vstr "EMAIL")]) := by
  constructor
  · exact claim_C6.2.2.1 _ "EMAIL" "email" (by decide)
  · exact (claim_C6.2.2.2.1 _ _ 0 (.vdict [("name", .vstr "EMAIL")]) (by decide)).trans (by decide)

/-! ## C3: primary key resolution -/

theorem dcontains_dset_ne (d : Dict) (k k' : String) (v : Value) (h : k ≠ k') :
    dcontains (dset d k v) k' = dcontains d k' := by
  simp [dcontains, dlookup_dset_ne _ _ _ _ h]

/-- The primary-key names harvested from the columns' transient flags,
as the spec words it: names of flagged columns, in column order. -/
def pkFromFlags (cols : List Value) : List Value :=
  cols.filterMap (fun c => if (cget c "primary_key").truthy then some (cget c "name") else none)

/-- The primary-key names harvested from the table-level primary-key
constraints, as the spec words it: the concatenation of the column-name
lists, in declaration order. -/
def pkFromConstraints (e : Dict) : List Value :=
  if (vdGet (dgetD e "constraints") "primary_keys" .vnone).truthy then
    (vdGet (dgetD e "constraints") "primary_keys" .vnone).asList.foldl
      (fun acc kc => acc ++ (cget kc "columns").asList) []
  else []

theorem dgetD_setCols_ne (e : Dict) (cols : List Value) (k : String) (h : k ≠ "columns") :
    dgetD (setCols e cols) k = dgetD e k := by
  unfold setCols
  rw [dgetD_dset_ne _ _ _ _ (fun hh => h hh.symm)]

theorem noflag_cerase (c : Value) (h : (dkeys c.asDict).Nodup) :
    dcontains (cerase c "primary_key").asDict "primary_key" = false := by
  simp only [cerase, Value.asDict]
  exact dcontains_derase_self _ _ h

theorem noflag_cset (c : Value) (k : String) (v : Value) (hk : k ≠ "primary_key")
    (h : dcontains c.asDict "primary_key" = false) :
    dcontains (cset c k v).asDict "primary_key" = false := by
  simp only [cset, Value.asDict]
  rw [dcontains_dset_ne _ _ _ _ hk]
  exact h

/-- C3: building a table with an empty (falsy) declared primary-key
list resolves `primary_key` to the flagged-column names in column order
followed by the constraint column lists in declaration order; whatever
the branch, the transient `primary_key` flag is removed from every
column; and every column whose name is in the final `primary_key` list
ends with `nullable = false`.  (The well-formedness hypothesis says the
column dicts have no duplicated keys, as Python dicts cannot.) -/
theorem claim_C3 (e : Dict) (hwf : ∀ c ∈ ecols e, (dkeys c.asDict).Nodup) :
    (¬ (dgetD e "primary_key").truthy = true →
       dgetD (populateKeys e) "primary_key" =
         .vlist (pkFromFlags (ecols e) ++ pkFromConstraints e)) ∧
    (∀ (i : Nat) (c' : Value), (ecols (populateKeys e))[i]? = some c' →
       dcontains c'.asDict "primary_key" = false) ∧
    (∀ (i : Nat) (c' : Value), (ecols (populateKeys e))[i]? = some c' →
       memIn (cget c' "name") (dgetD (populateKeys e) "primary_key") = true →
       cget c' "nullable" = .vbool false) := by
  unfold populateKeys
  dsimp only
  set e1 := if ¬ (dgetD e "primary_key").truthy = true then getPkFromColumnsAndConstraints e
            else removePkFromColumns e with he1
  set e2 := if (dgetD e1 "unique").truthy = true then addUniqueColumns e1 else e1 with he2
  have hcol1 : ecols e1 = (ecols e).map (fun c => cerase c "primary_key") := by
    rw [he1]
    split
    · exact ecols_getPk e
    · exact ecols_removePk e
  have base : ∀ (j : Nat) (c3 : Value), (ecols e1)[j]? = some c3 →
      dcontains c3.asDict "primary_key" = false := by
    intro j c3 hj
    rw [hcol1, List.getElem?_map] at hj
    obtain ⟨c4, hc4, rfl⟩ := Option.map_eq_some'.mp hj
    exact noflag_cerase c4 (hwf c4 (List.getElem?_mem hc4))
  have step2 : ∀ (j : Nat) (c2 : Value), (ecols e2)[j]? = some c2 →
      dcontains c2.asDict "primary_key" = false := by
    intro j c2 hj
    rw [he2] at hj
    by_cases hq : (dgetD e1 "unique").truthy = true
    · rw [if_pos hq] at hj
      unfold addUniqueColumns at hj
      rw [ecols_setCols, List.getElem?_map] at hj
      obtain ⟨c3, hc3, rfl⟩ := Option.map_eq_some'.mp hj
      have h3 := base j c3 hc3
      split
      · exact noflag_cset c3 _ _ (by decide) h3
      · exact h3
    · rw [if_neg hq] at hj
      exact base j c2 hj
  have hpk2 : dgetD e2 "primary_key" = dgetD e1 "primary_key" := by
    rw [he2]
    split
    · unfold addUniqueColumns
      rw [dgetD_setCols_ne _ _ _ (by decide)]
    · rfl
  refine ⟨?_, ?_, ?_⟩
  · intro hpk
    rw [dgetD_setCols_ne _ _ _ (by decide), hpk2, he1, if_pos hpk]
    unfold getPkFromColumnsAndConstraints
    dsimp only
    rw [dgetD_dset_self]
    have hcons : dgetD (removePkFromColumns e) "constraints" = dgetD e "constraints" := by
      unfold removePkFromColumns
      rw [dgetD_setCols_ne _ _ _ (by decide)]
    rw [hcons]
    rfl
  · intro i c' hc'
    rw [ecols_setCols, List.getElem?_map] at hc'
    obtain ⟨c2, hc2, rfl⟩ := Option.map_eq_some'.mp hc'
    have h2 := step2 i c2 hc2
    split
    · exact noflag_cset c2 _ _ (by decide) h2
    · exact h2
  · intro i c' hc' hmem
    rw [ecols_setCols, List.getElem?_map] at hc'
    obtain ⟨c2, hc2, rfl⟩ := Option.map_eq_some'.mp hc'
    rw [dgetD_setCols_ne _ _ _ (by decide)] at hmem
    by_cases hm : memIn (cget c2 "name") (dgetD e2 "primary_key") = true
    · rw [if_pos hm, cget_cset_self]
    · rw [if_neg hm] at hmem ⊢
      exact absurd hmem hm

/-- The concrete CreateTable-shaped entity used by the C3 witness. -/
def c3Entity : Dict :=
  [("columns", .vlist
      [.vdict [("name", .vstr "id"), ("nullable", .vbool true), ("primary_key", .vbool true)],
       .vdict [("name", .vstr "email"), ("nullable", .vbool true), ("primary_key", .vbool false)]]),
   ("primary_key", .vnone),
   ("constraints", .vdict [("primary_keys", .vlist [.vdict [("columns", .vlist [.vstr "sync"])]])]),
   ("unique", .vlist [])]

/-- C3 witness: the flagged column `id` plus the constraint column
`sync` form the primary key; the transient flag is gone from the
resolved column and `id` (a primary-key member) is forced
non-nullable. -/
theorem claim_C3_witness :
    dgetD (populateKeys c3Entity) "primary_key" = .vlist [.vstr "id", .vstr "sync"] ∧
    dcontains (Value.asDict
      (.vdict [("name", .vstr "id"), ("nullable", .vbool false)])) "primary_key" = false ∧
    cget (.vdict [("name", .vstr "id"), ("nullable", .vbool false)]) "nullable" = .vbool false := by
  have h := claim_C3 c3Entity (by decide)
  refine ⟨?_, ?_, ?_⟩
  · have h1 := h.1 (by decide)
    exact h1.trans (by decide)
  · exact h.2.1 0 (.vdict [("name", .vstr "id"), ("nullable", .vbool false)]) (by decide)
  · exact h.2.2 0 (.vdict [("name", .vstr "id"), ("nullable", .vbool false)]) (by decide) (by decide)

/-! ## C2: field filter policy and output presence -/

theorem dcontains_cons (k0 : String) (v0 : Value) (d : Dict) (k : String) :
    dcontains ((k0, v0) :: d) k = (decide (k0 = k) || dcontains d k) := by
  by_cases h : k0 = k <;> simp [dcontains, dlookup, h]

theorem dcontains_append (l1 l2 : Dict) (k : String) :
    dcontains (l1 ++ l2) k = (dcontains l1 k || dcontains l2 k) := by
  induction l1 with
  | nil => simp [dcontains, dlookup]
  | cons kv rest ih =>
    obtain ⟨k0, v0⟩ := kv
    rw [List.cons_append, dcontains_cons, dcontains_cons, ih]
    cases decide (k0 = k) <;> simp

theorem dkeys_filter_subset (d : Dict) (f : String × Value → Bool) (k : String)
    (h : dcontains (d.filter f) k = true) : dcontains d k = true := by
  induction d with
  | nil => simp [List.filter, dcontains, dlookup] at h
  | cons kv rest ih =>
    obtain ⟨k0, v0⟩ := kv
    rw [dcontains_cons]
    rw [List.filter_cons] at h
    by_cases hf : f (k0, v0) = true
    · rw [if_pos hf, dcontains_cons] at h
      cases hd : decide (k0 = k)
      · rw [hd] at h
        simp only [Bool.false_or] at h ⊢
        exact ih h
      · simp
    · rw [if_neg hf] at h
      cases hd : decide (k0 = k)
      · simp only [Bool.false_or]
        exact ih h
      · simp

theorem dcontains_filter_keypred (d : Dict) (P : String → Bool) (k : String) :
    dcontains (d.filter (fun kv => P kv.1)) k = (dcontains d k && P k) := by
  induction d with
  | nil => simp [List.filter, dcontains, dlookup]
  | cons kv rest ih =>
    obtain ⟨k0, v0⟩ := kv
    rw [List.filter_cons]
    cases hf : P k0 with
    | true =>
      rw [if_pos (by simp [hf]), dcontains_cons, dcontains_cons, ih]
      by_cases hk : k0 = k
      · subst hk
        simp [hf]
      · simp [hk]
    | false =>
      rw [if_neg (by simp [hf]), dcontains_cons, ih]
      by_cases hk : k0 = k
      · subst hk
        simp [hf]
      · simp [hk]

theorem dlookup_mapkeys (f : String → Value) :
    ∀ (names : List String) (n : String), n ∈ names →
      dlookup (names.map (fun x => (x, f x))) n = some (f n) := by
  intro names
  induction names with
  | nil => intro n h; simp at h
  | cons n0 rest ih =>
    intro n h
    rw [List.map_cons]
    by_cases h0 : n0 = n
    · subst h0
      simp [dlookup]
    · simp only [dlookup, h0, if_false]
      exact ih n (by rcases List.mem_cons.mp h with h | h; exact absurd h.symm h0; exact h)

theorem dcontains_setCols_mono (e : Dict) (cols : List Value) (k : String)
    (h : dcontains e k = true) : dcontains (setCols e cols) k = true := by
  unfold setCols
  exact dcontains_dset_mono _ _ _ _ h

theorem setUniqueColumns_contains_mono (d : Dict) (k : String) (h : dcontains d k = true) :
    dcontains (setUniqueColumns d) k = true := by
  unfold setUniqueColumns
  dsimp only
  have h1 : ∀ d2 : Dict, dcontains d2 k = true →
      ∀ key, dcontains (setColumnUniqueParam d2 key) k = true := by
    intro d2 h2 key
    unfold setColumnUniqueParam
    exact dcontains_setCols_mono _ _ _ h2
  split
  · split
    · exact h1 _ (h1 d h "unique_statement") "constraints"
    · exact h1 d h "unique_statement"
  · split
    · exact h1 d h "constraints"
    · exact h

theorem populateKeys_contains_mono (d : Dict) (k : String) (h : dcontains d k = true) :
    dcontains (populateKeys d) k = true := by
  unfold populateKeys
  dsimp only
  apply dcontains_setCols_mono
  have h1 : ∀ d1 : Dict, dcontains d1 k = true →
      dcontains (if (dgetD d1 "unique").truthy = true then addUniqueColumns d1 else d1) k = true := by
    intro d1 h1
    split
    · unfold addUniqueColumns
      exact dcontains_setCols_mono _ _ _ h1
    · exact h1
  apply h1
  split
  · unfold getPkFromColumnsAndConstraints
    dsimp only
    apply dcontains_dset_mono
    unfold removePkFromColumns
    exact dcontains_setCols_mono _ _ _ h
  · unfold removePkFromColumns
    exact dcontains_setCols_mono _ _ _ h

theorem normalizeRefColumns_contains_mono (d : Dict) (k : String) (h : dcontains d k = true) :
    dcontains (normalizeRefColumns d) k = true := by
  unfold normalizeRefColumns
  dsimp only
  apply dcontains_dset_mono
  generalize (dgetD d "ref_columns").asList = refs
  induction refs generalizing d with
  | nil => exact h
  | cons r rest ih =>
    rw [List.foldl_cons]
    exact ih _ (dcontains_setCols_mono _ _ _ h)

theorem postInit_contains_mono (d : Dict) (k : String) (h : dcontains d k = true) :
    dcontains (postInit d) k = true :=
  normalizeRefColumns_contains_mono _ _
    (populateKeys_contains_mono _ _ (setUniqueColumns_contains_mono _ _ h))

theorem setUniqueColumns_preserves (d : Dict) (k : String) (hc : k ≠ "columns") :
    dgetD (setUniqueColumns d) k = dgetD d k := by
  unfold setUniqueColumns
  dsimp only
  have h1 : ∀ (d2 : Dict) (key : String),
      dgetD (setColumnUniqueParam d2 key) k = dgetD d2 k := by
    intro d2 key
    unfold setColumnUniqueParam
    exact dgetD_setCols_ne _ _ _ hc
  split
  · split
    · rw [h1, h1]
    · rw [h1]
  · split
    · rw [h1]
    · rfl

theorem populateKeys_preserves (d : Dict) (k : String) (hc : k ≠ "columns")
    (hp : k ≠ "primary_key") : dgetD (populateKeys d) k = dgetD d k := by
  unfold populateKeys
  dsimp only
  rw [dgetD_setCols_ne _ _ _ hc]
  have h1 : ∀ d1 : Dict,
      dgetD (if (dgetD d1 "unique").truthy = true then addUniqueColumns d1 else d1) k =
        dgetD d1 k := by
    intro d1
    split
    · unfold addUniqueColumns
      exact dgetD_setCols_ne _ _ _ hc
    · rfl
  rw [h1]
  split
  · unfold getPkFromColumnsAndConstraints
    dsimp only
    rw [dgetD_dset_ne _ _ _ _ (fun hh => hp hh.symm)]
    unfold removePkFromColumns
    exact dgetD_setCols_ne _ _ _ hc
  · unfold removePkFromColumns
    exact dgetD_setCols_ne _ _ _ hc

theorem normalizeRefColumns_preserves (d : Dict) (k : String) (hc : k ≠ "columns")
    (hr : k ≠ "ref_columns") : dgetD (normalizeRefColumns d) k = dgetD d k := by
  unfold normalizeRefColumns
  dsimp only
  rw [dgetD_dset_ne _ _ _ _ (fun hh => hr hh.symm)]
  generalize (dgetD d "ref_columns").asList = refs
  induction refs generalizing d with
  | nil => rfl
  | cons r rest ih =>
    rw [List.foldl_cons, ih _, dgetD_setCols_ne _ _ _ hc]

theorem postInit_preserves (d : Dict) (k : String) (hc : k ≠ "columns")
    (hp : k ≠ "primary_key") (hr : k ≠ "ref_columns") :
    dgetD (postInit d) k = dgetD d k := by
  unfold postInit
  rw [normalizeRefColumns_preserves _ _ hc hr, populateKeys_preserves _ _ hc hp,
      setUniqueColumns_preserves _ _ hc]

theorem dcontains_mainprops (kwargs : Dict) (k : String) :
    dcontains ((kwargs.filter (fun kv => baseFieldNames.contains kv.1)) ++
        (kwargs.filter (fun kv => ¬ baseFieldNames.contains kv.1))) k = dcontains kwargs k := by
  rw [dcontains_append, dcontains_filter_keypred,
      dcontains_filter_keypred kwargs (fun s => decide (¬ baseFieldNames.contains s = true)) k]
  cases hq : baseFieldNames.contains k <;> cases hck : dcontains kwargs k <;> simp [hq, hck]

/-- C2: the field filter equals the spec's ordered first-match rule
list, and a field classified exclude-if-not-provided is absent from
`to_dict` output whenever its key was absent from the raw builder input
and present (subject only to the dialect allow-list) whenever the key
was present — independently of the resolved value.  (The nodup
hypothesis says the raw kwargs dict has no duplicated keys, as Python
dicts cannot.) -/
theorem claim_C2 :
    (∀ (e : Dict) (fld : String), filterOutOutput e fld = specOrderFilter e fld) ∧
    (∀ (fld : String) (m : FieldMeta), (fld, m) ∈ baseDataFields →
       m.excludeIfNotProvided = true →
       ∀ kwargs : Dict, (dkeys kwargs).Nodup →
         (dcontains kwargs fld = false →
            dcontains (toDict (buildBaseData kwargs)) fld = false) ∧
         (dcontains kwargs fld = true →
            dcontains (toDict (buildBaseData kwargs)) fld =
              ! dialectRestricted m ((dgetD (buildBaseData kwargs) "output_mode").asStr))) := by
  constructor
  · intro e fld
    cases hA : (metaFor fld).excludeAlways <;>
      cases hB : ((metaFor fld).excludeIfNotProvided && ! memIn (.vstr fld) (dgetD e "init_data")) <;>
        cases hC : ((metaFor fld).excludeIfEmpty && ! (dgetD e fld).truthy) <;>
          cases hD : dialectRestricted (metaFor fld) ((dgetD e "output_mode").asStr) <;>
            simp [filterOutOutput, specOrderFilter, ruleApplies, List.find?, hA, hB, hC, hD]
  · intro fld m hmem hprov kwargs _hnd
    have hmeta : metaFor fld = m := by
      have hall : ∀ p ∈ baseDataFields, metaFor p.1 = p.2 := by decide
      exact hall (fld, m) hmem
    have hflags : m.excludeAlways = false ∧ m.excludeIfEmpty = false := by
      have hall : ∀ p ∈ baseDataFields, p.2.excludeIfNotProvided = true →
          (p.2.excludeAlways = false ∧ p.2.excludeIfEmpty = false) := by decide
      exact hall (fld, m) hmem hprov
    have hfldmem : fld ∈ baseFieldNames := by
      unfold baseFieldNames
      exact List.mem_map.mpr ⟨(fld, m), hmem, rfl⟩
    -- the built entity contains the field
    have hcb : dcontains (constructBase (preLoadMods kwargs)) fld = true := by
      unfold constructBase dcontains
      rw [dlookup_mapkeys _ baseFieldNames fld hfldmem]
      rfl
    have hcontains : dcontains (buildBaseData kwargs) fld = true :=
      postInit_contains_mono _ _ hcb
    -- the init_data attribute survives post-init and records the raw keys
    have hinit : dgetD (buildBaseData kwargs) "init_data" =
        .vdict ((kwargs.filter (fun kv => baseFieldNames.contains kv.1)) ++
          (kwargs.filter (fun kv => ¬ baseFieldNames.contains kv.1))) := by
      unfold buildBaseData
      rw [postInit_preserves _ _ (by decide) (by decide) (by decide)]
      unfold constructBase
      unfold dgetD
      rw [dlookup_mapkeys _ baseFieldNames "init_data" (by decide)]
      unfold preLoadMods
      dsimp only
      rw [show ∀ d : Dict, dlookup (dset d "init_data" (.vdict
            ((kwargs.filter (fun kv => baseFieldNames.contains kv.1)) ++
             (kwargs.filter (fun kv => ¬ baseFieldNames.contains kv.1))))) "init_data" =
          some (.vdict ((kwargs.filter (fun kv => baseFieldNames.contains kv.1)) ++
             (kwargs.filter (fun kv => ¬ baseFieldNames.contains kv.1))))
        from fun d => dlookup_dset_self d _ _]
      rfl
    have hmemin : memIn (.vstr fld) (dgetD (buildBaseData kwargs) "init_data") =
        dcontains kwargs fld := by
      rw [hinit]
      unfold memIn
      exact dcontains_mainprops kwargs fld
    have hfilter : ∀ b : Bool, dcontains kwargs fld = b →
        filterOutOutput (buildBaseData kwargs) fld =
          (b && ! dialectRestricted m ((dgetD (buildBaseData kwargs) "output_mode").asStr)) := by
      intro b hb
      unfold filterOutOutput
      rw [hmeta]
      dsimp only
      rw [hflags.1, hflags.2, hprov, hmemin, hb]
      cases b <;>
        cases hD : dialectRestricted m ((dgetD (buildBaseData kwargs) "output_mode").asStr) <;>
          simp [hD]
    have htd : dcontains (toDict (buildBaseData kwargs)) fld =
        (dcontains (buildBaseData kwargs) fld && filterOutOutput (buildBaseData kwargs) fld) := by
      unfold toDict
      exact dcontains_filter_keypred _ _ _
    constructor
    · intro hb
      rw [htd, hfilter false hb]
      simp
    · intro hb
      rw [htd, hfilter true hb, hcontains]
      simp

/-- C2 witness: `comment` (an exclude-if-not-provided field) is absent
when the raw input lacked the key even though the resolved value is its
default, and present when the raw input carried it with a falsy
value. -/
theorem claim_C2_witness :
    filterOutOutput [] "constraints" = specOrderFilter [] "constraints" ∧
    dcontains (toDict (buildBaseData [("table_name", .vstr "t"), ("schema", .vstr "s")]))
      "comment" = false ∧
    dcontains (toDict (buildBaseData [("table_name", .vstr "t"), ("comment", .vstr "")]))
      "comment" = true := by
  refine ⟨claim_C2.1 [] "constraints", ?_, ?_⟩
  · exact (claim_C2.2 "comment" { excludeIfNotProvided := true } (by decide) rfl
      [("table_name", .vstr "t"), ("schema", .vstr "s")] (by decide)).1 (by decide)
  · exact ((claim_C2.2 "comment" { excludeIfNotProvided := true } (by decide) rfl
      [("table_name", .vstr "t"), ("comment", .vstr "")] (by decide)).2 (by decide)).trans
      (by decide)

/-! ## C5: registry identity — a created table reflects exactly its own
alters, in input order, and nothing else changes -/

/-- An ALTER statement record addressed at registry key `k`: it carries
the `alter_table_name` key with a truthy value, no truthy `index_name`,
and its `(schema, alter_table_name)` pair resolves to `k`. -/
def isAlterFor (k : Value × Value) (a : Dict) : Bool :=
  dcontains a "alter_table_name" && (dgetD a "alter_table_name").truthy &&
  ! (dgetD a "index_name").truthy &&
  decide (getTableId (dgetD a "schema") (dgetD a "alter_table_name") = k)

theorem rlookup_rset_self : ∀ (r : List ((Value × Value) × Nat)) (k : Value × Value) (n : Nat),
    rlookup (rset r k n) k = some n := by
  intro r k n
  induction r with
  | nil => simp [rset, rlookup]
  | cons kv rest ih =>
    obtain ⟨k0, i0⟩ := kv
    by_cases h0 : k0 = k
    · simp [rset, h0, rlookup]
    · simp [rset, h0, rlookup, ih]

theorem set_concat_length {α : Type} : ∀ (l : List α) (x y : α),
    (l ++ [x]).set l.length y = l ++ [y] := by
  intro l x y
  induction l with
  | nil => rfl
  | cons a rest ih => simp [List.set, ih]

theorem processStmts_alters (k : Value × Value) :
    ∀ (alters : List Dict) (r : List ((Value × Value) × Nat)) (objs : List Dict)
      (fin : List ResItem) (cur : Dict),
    (∀ a ∈ alters, isAlterFor k a = true) →
    processStmts "sql" alters
        { registry := rset r k objs.length, objects := objs ++ [cur], final := fin } =
      .ok { registry := rset r k objs.length,
            objects := objs ++ [alters.foldl applyAlterStmt cur],
            final := fin } := by
  intro alters
  induction alters with
  | nil => intro r objs fin cur _; simp [processStmts]
  | cons a rest ih =>
    intro r objs fin cur h
    have ha := h a (List.mem_cons_self a rest)
    simp only [isAlterFor, Bool.and_eq_true] at ha
    obtain ⟨⟨⟨ha1, ha2⟩, ha3⟩, ha4⟩ := ha
    have hkey : getTableId (dgetD a "schema") (dgetD a "alter_table_name") = k :=
      of_decide_eq_true ha4
    have ha3' : (dgetD a "index_name").truthy = false := by
      cases hx : (dgetD a "index_name").truthy
      · rfl
      · rw [hx] at ha3; simp at ha3
    have hstep : processStatement "sql"
        { registry := rset r k objs.length, objects := objs ++ [cur], final := fin } a =
        .ok { registry := rset r k objs.length,
              objects := objs ++ [applyAlterStmt cur a], final := fin } := by
      unfold processStatement
      rw [ha1]
      simp only [Bool.or_true, if_true]
      unfold processAlterAndIndexResult
      rw [ha3', ha2]
      simp only [Bool.false_eq_true, if_false, if_true]
      unfold addAlterToTable getTableFromTablesData
      rw [hkey]
      have hget : (objs ++ [cur]).get? objs.length = some cur := by
        rw [List.get?_eq_getElem?]
        exact List.getElem?_concat_length objs cur
      simp only [rlookup_rset_self, hget]
      unfold setObj
      dsimp only
      rw [set_concat_length]
    unfold processStmts
    simp only [hstep]
    rw [ih r objs fin (applyAlterStmt cur a) (fun b hb => h b (List.mem_cons_of_mem a hb))]
    rw [List.foldl_cons]

/-- C5: a CreateTable for key `(schema, table)` followed by any ALTER
statements addressed at that key leaves exactly this end state: the
registry binds the key to the new object, the object store gains one
object equal to the built entity with every alter operation folded over
it in input order (no other object is touched, the registry rebinds
nothing else, previously emitted results are untouched), and the final
output gains exactly one emitted dict: the `to_dict` of the
alter-folded entity. -/
theorem claim_C5 (st : OState) (cstmt : Dict) (alters : List Dict)
    (h1 : dcontains cstmt "index_name" = false)
    (h2 : dcontains cstmt "alter_table_name" = false)
    (h3 : (dgetD cstmt "table_name").truthy = true)
    (halters : ∀ a ∈ alters, isAlterFor
        (getTableId (dgetD (tableDataInit (dset cstmt "output_mode" (.vstr "sql"))) "schema")
          (dgetD (tableDataInit (dset cstmt "output_mode" (.vstr "sql"))) "table_name")) a = true)
    (hwfres : ∀ i : Nat, ResItem.tableRef i ∈ st.final → i < st.objects.length) :
    processStmts "sql" (cstmt :: alters) st =
      .ok { registry := rset st.registry
              (getTableId (dgetD (tableDataInit (dset cstmt "output_mode" (.vstr "sql"))) "schema")
                (dgetD (tableDataInit (dset cstmt "output_mode" (.vstr "sql"))) "table_name"))
              st.objects.length,
            objects := st.objects ++
              [alters.foldl applyAlterStmt (tableDataInit (dset cstmt "output_mode" (.vstr "sql")))],
            final := st.final ++ [.tableRef st.objects.length] } ∧
    finalOutput
        { registry := rset st.registry
            (getTableId (dgetD (tableDataInit (dset cstmt "output_mode" (.vstr "sql"))) "schema")
              (dgetD (tableDataInit (dset cstmt "output_mode" (.vstr "sql"))) "table_name"))
            st.objects.length,
          objects := st.objects ++
            [alters.foldl applyAlterStmt (tableDataInit (dset cstmt "output_mode" (.vstr "sql")))],
          final := st.final ++ [.tableRef st.objects.length] } =
      finalOutput st ++
        [toDict (alters.foldl applyAlterStmt (tableDataInit (dset cstmt "output_mode" (.vstr "sql"))))] := by
  constructor
  · have hcreate : processStatement "sql" st cstmt =
        .ok { registry := rset st.registry
                (getTableId (dgetD (tableDataInit (dset cstmt "output_mode" (.vstr "sql"))) "schema")
                  (dgetD (tableDataInit (dset cstmt "output_mode" (.vstr "sql"))) "table_name"))
                st.objects.length,
              objects := st.objects ++ [tableDataInit (dset cstmt "output_mode" (.vstr "sql"))],
              final := st.final ++ [.tableRef st.objects.length] } := by
      unfold processStatement
      rw [h1, h2]
      simp only [Bool.or_self, Bool.false_eq_true, if_false]
      unfold processStatementData
      rw [if_pos h3]
      rw [show schemaKey "sql" = "schema" from rfl]
    unfold processStmts
    rw [hcreate]
    exact processStmts_alters _ alters st.registry st.objects
      (st.final ++ [.tableRef st.objects.length])
      (tableDataInit (dset cstmt "output_mode" (.vstr "sql"))) halters
  · unfold finalOutput
    dsimp only
    rw [List.map_append]
    congr 1
    · apply List.map_congr_left
      intro item hitem
      cases item with
      | passthrough d => rfl
      | tableRef i =>
        dsimp only
        rw [List.get?_eq_getElem?, List.get?_eq_getElem?,
            List.getElem?_append_left (hwfres i hitem)]
    · simp only [List.map_cons, List.map_nil]
      rw [List.get?_eq_getElem?, List.getElem?_concat_length]
      rfl

/-- The CreateTable record of the spec's end-to-end example (section 8,
item 6). -/
def c5Create : Dict :=
  [("schema", .vstr "s"), ("table_name", .vstr "t"),
   ("columns", .vlist
     [.vdict [("name", .vstr "id"), ("nullable", .vbool true), ("unique", .vbool false),
              ("primary_key", .vbool true)],
      .vdict [("name", .vstr "email"), ("nullable", .vbool true), ("unique", .vbool false),
              ("primary_key", .vbool false)]])]

/-- The ALTER ADD UNIQUE record of the spec's end-to-end example. -/
def c5Alter : Dict :=
  [("alter_table_name", .vstr "t"), ("schema", .vstr "s"),
   ("unique", .vdict [("columns", .vlist [.vstr "email"])])]

/-- C5 witness: the spec's end-to-end example — creating `(s, t)` and
then ALTER ADD UNIQUE on `email` yields exactly one emitted entity with
`primary_key = [id]`, `id` non-nullable and non-unique, and `email`
unique. -/
theorem claim_C5_witness :
    (processStmts "sql" [c5Create, c5Alter] {}).map finalOutput =
      .ok [[("table_name", .vstr "t"), ("schema", .vstr "s"),
            ("primary_key", .vlist [.vstr "id"]),
            ("columns", .vlist
              [.vdict [("name", .vstr "id"), ("nullable", .vbool false), ("unique", .vbool false)],
               .vdict [("name", .vstr "email"), ("nullable", .vbool true), ("unique", .vbool true)]]),
            ("alter", .vdict [("uniques", .vlist [.vdict [("columns", .vlist [.vstr "email"])]])]),
            ("checks", .vlist []), ("index", .vlist []), ("partitioned_by", .vlist []),
            ("tablespace", .vnone)]] := by
  have h := claim_C5 {} c5Create [c5Alter] (by decide) (by decide) (by decide)
    (by decide) (by intro i hi; simp at hi)
  rw [h.1]
  simp only [Except.map]
  rw [h.2]
  rfl

end SimpleDDL
